import Mathlib

/-!
College Companion: study-room chat relay

A shallow embedding of the server side of the study-room chat
(`backend/config/socket.js`, `backend/models/StudyRoomChat.js`,
`backend/routes/studyRoomChatRoutes.js`) and theorems about it.

Conventions of the embedding
* A JavaScript value that can be `undefined` or a string is an `Option String`.
* Each socket handler is one atomic step `Server → Server × List Effect`; the
  effects are listed in program order.
* What the handler cannot decide itself is read from an `Env`: the clock, whether
  the k-th store call of the handler goes through, and what the two AI providers
  answer.
-/

namespace CollegeCompanion

/-! ## JavaScript strings -/

/-- White space and line terminators removed by `String.prototype.trim`. -/
def isJsWhitespace (c : Char) : Bool :=
  decide (c.toNat ∈ [0x09, 0x0A, 0x0B, 0x0C, 0x0D, 0x20, 0xA0, 0x1680, 0x2028, 0x2029,
    0x202F, 0x205F, 0x3000, 0xFEFF]) || (decide (0x2000 ≤ c.toNat) && decide (c.toNat ≤ 0x200A))

/-- Characters of `s.trim()`. -/
def trimChars (cs : List Char) : List Char :=
  ((cs.dropWhile isJsWhitespace).reverse.dropWhile isJsWhitespace).reverse

/-- The method `text.trim()`. -/
def jsTrim (s : String) : String := ⟨trimChars s.data⟩

/-- Truthiness of a string: `!s` is false exactly for a non-empty string. -/
def strTruthy (s : String) : Bool := !s.data.isEmpty

/-- Truthiness of a value that is `undefined` or a string. -/
def truthy : Option String → Bool
  | none => false
  | some s => strTruthy s

/-- Template-literal interpolation of a value that is `undefined` or a string. -/
def interpolate : Option String → String
  | none => "undefined"
  | some s => s

/-- The guard `!text || !text.trim()` of the `chat:send` handler. -/
def textRejected (text : Option String) : Bool :=
  match text with
  | none => true
  | some t => !strTruthy t || !strTruthy (jsTrim t)

/-- `arr.slice(-n)`: the last `n` elements (all of them when there are fewer). -/
def sliceLast {α : Type} (n : Nat) (l : List α) : List α := l.drop (l.length - n)

/-! ## Data model (`models/StudyRoomChat.js`) -/

/-- One element of `messages` (`messageSchema`). -/
structure Message where
  sender : String
  userId : Option String
  userName : Option String
  text : String
  timestamp : Nat
deriving DecidableEq

/-- One document of the collection (`studyRoomChatSchema`). -/
structure StudyRoomChat where
  roomId : Option String
  messages : List Message
  createdAt : Nat
  updatedAt : Nat
deriving DecidableEq

/-- The document after `chat.messages.push(m)`. -/
def StudyRoomChat.push (chat : StudyRoomChat) (m : Message) : StudyRoomChat :=
  ⟨chat.roomId, chat.messages ++ [m], chat.createdAt, chat.updatedAt⟩

/-- The document after the `pre('save')` hook `this.updatedAt = new Date()`. -/
def StudyRoomChat.touch (chat : StudyRoomChat) (now : Nat) : StudyRoomChat :=
  ⟨chat.roomId, chat.messages, chat.createdAt, now⟩

/-- The collection of chat documents, in natural order. -/
abbrev Store := List StudyRoomChat

/-- Mongoose `required: true` on a `String` path: present and of length > 0. -/
def required (v : Option String) : Bool := truthy v

/-- Validation of one message against `messageSchema`: `sender` is required and in
the enum, `userId` and `userName` are required when `sender === 'user'`, `text` is
required. -/
def messageValid (m : Message) : Bool :=
  (m.sender == "user" || m.sender == "assistant")
    && (m.sender != "user" || required m.userId)
    && (m.sender != "user" || required m.userName)
    && strTruthy m.text

/-- Validation of a document against `studyRoomChatSchema`. -/
def docValid (d : StudyRoomChat) : Bool :=
  required d.roomId && d.messages.all messageValid

/-- A store all of whose documents pass schema validation. -/
def storeValid (store : Store) : Bool := store.all docValid

/-- `StudyRoomChat.findOne({ roomId })` on a reachable store: the first document with
that `roomId`. -/
def findOne (store : Store) (roomId : Option String) : Option StudyRoomChat :=
  store.find? (fun d => d.roomId == roomId)

/-- Write a loaded document back in place of the first document with its `roomId`
(the one `findOne` returned). -/
def replaceFirst (doc : StudyRoomChat) : Store → Store
  | [] => []
  | d :: ds => if d.roomId == doc.roomId then doc :: ds else d :: replaceFirst doc ds

/-! ## Environment of one handler run -/

/-- Sampling parameters handed to a provider; `0.7` is `⟨7, 1⟩` (7 · 10⁻¹). -/
structure Decimal where
  digits : Nat
  scale : Nat
deriving DecidableEq

/-- Options of an AI call: `{ temperature, max_tokens }`. -/
structure AIParams where
  temperature : Decimal
  max_tokens : Nat
deriving DecidableEq

/-- What a handler reads from outside.
* `now`: the value of `new Date()` during the step.
* `storeUp k`: whether the k-th store call of the handler (0 is the `findOne`, 1 and 2
  are the `save`s) reaches the database; when it does not the call throws.
* `generateAIResponse`: the primary provider (`utils/geminiClient.js`, an external
  module here); `none` is a throw.
* `groqContent`: what `groqResponse.choices[0].message.content` evaluates to for a
  call of the fallback (`services/groqService.js`, an external module here);
  `none` is a throw anywhere in that expression. -/
structure Env where
  now : Nat
  storeUp : Nat → Bool
  generateAIResponse : String → AIParams → Option String
  groqContent : String → String → AIParams → Option String

/-- `await StudyRoomChat.findOne({ roomId })` as the k-th store call: `none` is a throw. -/
def findOneE (env : Env) (k : Nat) (store : Store) (roomId : Option String) :
    Option (Option StudyRoomChat) :=
  if env.storeUp k then some (findOne store roomId) else none

/-- `await chat.save()` of a freshly constructed document as the k-th store call:
validation, then the `pre('save')` hook and the timestamps, then the insert. -/
def saveNewE (env : Env) (k : Nat) (store : Store) (doc : StudyRoomChat) : Option Store :=
  if docValid doc && env.storeUp k then
    some (store ++ [⟨doc.roomId, doc.messages, env.now, env.now⟩])
  else none

/-- `await chat.save()` of a loaded document as the k-th store call: validation, then
the `pre('save')` hook, then the write. -/
def saveE (env : Env) (k : Nat) (store : Store) (doc : StudyRoomChat) : Option Store :=
  if docValid doc && env.storeUp k then
    some (replaceFirst (doc.touch env.now) store)
  else none

/-! ## Sessions, events and effects -/

/-- A connected socket: its id, the rooms it is in (`socket.rooms`) and the three
properties the handlers attach to it. -/
structure Socket where
  id : String
  rooms : List (Option String)
  roomId : Option String
  userId : Option String
  userName : Option String
deriving DecidableEq

/-- Server state: the connected sockets and the chat collection. -/
structure Server where
  sockets : List Socket
  store : Store
deriving DecidableEq

/-- Events the server emits. -/
inductive Event where
  | chatHistory (messages : List Message)
  | roomUserJoined (userId userName : Option String) (timestamp : Nat)
  | roomUserLeft (userId userName : Option String) (timestamp : Nat)
  | chatMessage (m : Message)
  | chatAiResponse (m : Message)
  | chatUserTyping (userId userName : Option String) (isTyping : Bool)
  | error (message : String)
deriving DecidableEq

/-- Addressee of an emit: `socket.emit`, `io.to(room).emit`, `socket.to(room).emit`. -/
inductive Target where
  | socket (id : String)
  | room (r : Option String)
  | roomExcept (r : Option String) (sender : String)
deriving DecidableEq

/-- Observable actions of a handler, in program order. -/
inductive Effect where
  | emit (target : Target) (e : Event)
  | primaryCall (prompt : String) (params : AIParams)
  | fallbackCall (model : String) (prompt : String) (params : AIParams)
deriving DecidableEq

/-- Whether an emit addressed to `t` is delivered to socket `k`. -/
def delivers (k : Socket) : Target → Bool
  | .socket id => k.id == id
  | .room r => decide (r ∈ k.rooms)
  | .roomExcept r sender => decide (r ∈ k.rooms) && k.id != sender

/-- Events socket `k` receives from a list of effects. -/
def received (k : Socket) (effs : List Effect) : List Event :=
  effs.filterMap fun
    | .emit t e => if delivers k t then some e else none
    | _ => none

/-- Events emitted with `io.to(r).emit`. -/
def roomBroadcasts (r : Option String) (effs : List Effect) : List Event :=
  effs.filterMap fun
    | .emit (.room r') e => if r' = r then some e else none
    | _ => none

/-- Events emitted with `socket.emit` on socket `sid`. -/
def sentToSocket (sid : String) (effs : List Effect) : List Event :=
  effs.filterMap fun
    | .emit (.socket id) e => if id = sid then some e else none
    | _ => none

/-- Calls made to an AI provider. -/
def aiCalls (effs : List Effect) : List Effect :=
  effs.filter fun
    | .emit _ _ => false
    | _ => true

/-! ## Socket handlers (`config/socket.js`) -/

/-- Payload of `room:join` and `room:leave`. -/
structure RoomPayload where
  roomId : Option String
  userId : Option String
  userName : Option String
deriving DecidableEq

/-- Payload of `chat:send`. -/
structure SendPayload where
  roomId : Option String
  userId : Option String
  userName : Option String
  text : Option String
deriving DecidableEq

/-- Payload of `chat:typing`. -/
structure TypingPayload where
  roomId : Option String
  userId : Option String
  userName : Option String
  isTyping : Bool
deriving DecidableEq

/-- Apply `f` to the socket the handler belongs to. -/
def updateSocket (sid : String) (f : Socket → Socket) (sockets : List Socket) : List Socket :=
  sockets.map fun k => if k.id = sid then f k else k

/-- `socket.join(roomId)`: `socket.rooms` is a set. -/
def joinRoom (r : Option String) (k : Socket) : Socket :=
  if r ∈ k.rooms then k else { k with rooms := k.rooms ++ [r] }

/-- `socket.leave(roomId)`. -/
def leaveRoom (r : Option String) (k : Socket) : Socket :=
  { k with rooms := k.rooms.filter (fun x => x != r) }

/-- `io.on('connection', ...)`: a new socket is in the room named by its own id and has
none of the three properties yet. -/
def connect (s : Server) (sid : String) : Server × List Effect :=
  ({ s with sockets := s.sockets ++
      [{ id := sid, rooms := [some sid], roomId := none, userId := none, userName := none }] },
   [])

/-- The socket after the first four statements of the `room:join` handler. -/
def rebind (p : RoomPayload) (k : Socket) : Socket :=
  { joinRoom p.roomId k with roomId := p.roomId, userId := p.userId, userName := p.userName }

/-- The `room:join` handler. -/
def roomJoin (env : Env) (s : Server) (sid : String) (p : RoomPayload) : Server × List Effect :=
  let s1 : Server := { s with sockets := updateSocket sid (rebind p) s.sockets }
  let failed : List Effect := [.emit (.socket sid) (.error "Failed to join room")]
  let done := fun (messages : List Message) =>
    [Effect.emit (.socket sid) (.chatHistory messages),
     Effect.emit (.roomExcept p.roomId sid) (.roomUserJoined p.userId p.userName env.now)]
  match findOneE env 0 s.store p.roomId with
  | none => (s1, failed)
  | some (some chat) => (s1, done chat.messages)
  | some none =>
    match saveNewE env 1 s.store
        { roomId := p.roomId, messages := [], createdAt := env.now, updatedAt := env.now } with
    | none => (s1, failed)
    | some store1 => ({ s1 with store := store1 }, done [])

/-- The speaker label of one context line. -/
def speaker (m : Message) : String :=
  if m.sender = "user" then interpolate m.userName else "Assistant"

/-- One context line: the speaker, a colon and the text. -/
def renderLine (m : Message) : String := speaker m ++ ": " ++ m.text

/-- The `context` string built from the messages of the loaded document. -/
def buildContext (messages : List Message) : String :=
  "\n".intercalate ((sliceLast 10 messages).map renderLine)

/-- Text of the prompt before the context. -/
def promptHead : String :=
  "You are a helpful study assistant in a collaborative study room. Multiple students are studying together. Previous conversation:\n"

/-- Text of the prompt after the context. -/
def promptTail : String :=
  "\n\nProvide a helpful, concise response to help with their studies. Keep responses friendly and educational."

/-- The template literal `aiPrompt`. -/
def aiPrompt (context : String) : String := promptHead ++ context ++ promptTail

/-- The options object of both provider calls. -/
def aiParams : AIParams := { temperature := ⟨7, 1⟩, max_tokens := 500 }

/-- The model name of the fallback call. -/
def groqModel : String := "llama-3.1-70b-versatile"

/-- Text of the message broadcast when no reply could be produced or saved. -/
def apologyText : String :=
  "Sorry, I\x27m having trouble responding right now. Please try again."

/-- The inner `try` of `chat:send` up to the assignment of `aiResponseText`:
the calls made and the text obtained (`none` when the fallback threw too). -/
def askProviders (env : Env) (prompt : String) : List Effect × Option String :=
  match env.generateAIResponse prompt aiParams with
  | some t => ([.primaryCall prompt aiParams], some t)
  | none =>
    ([.primaryCall prompt aiParams, .fallbackCall groqModel prompt aiParams],
     env.groqContent groqModel prompt aiParams)

/-- An object `{ sender: 'assistant', text, timestamp: new Date() }`, as built for
`aiMessage` and for `fallbackMessage`. -/
def assistantMessage (env : Env) (text : String) : Message :=
  { sender := "assistant", userId := none, userName := none, text := text, timestamp := env.now }

/-- The AI step of `chat:send` (the inner `try`/`catch`), run on the loaded document
after the user message was pushed and saved. -/
def aiStep (env : Env) (store : Store) (chat : StudyRoomChat) (roomId : Option String) :
    Store × List Effect :=
  let calls := askProviders env (aiPrompt (buildContext chat.messages))
  let apology : Effect :=
    .emit (.room roomId) (.chatAiResponse (assistantMessage env apologyText))
  match calls.2 with
  | none => (store, calls.1 ++ [apology])
  | some aiResponseText =>
    let aiMessage := assistantMessage env aiResponseText
    match saveE env 2 store (chat.push aiMessage) with
    | none => (store, calls.1 ++ [apology])
    | some store2 => (store2, calls.1 ++ [.emit (.room roomId) (.chatAiResponse aiMessage)])

/-- The object `userMessage` of `chat:send`. -/
def userMessage (env : Env) (p : SendPayload) (text : String) : Message :=
  { sender := "user", userId := p.userId, userName := p.userName,
    text := jsTrim text, timestamp := env.now }

/-- The `chat:send` handler. -/
def chatSend (env : Env) (s : Server) (sid : String) (p : SendPayload) : Server × List Effect :=
  let rejected : Server × List Effect :=
    (s, [.emit (.socket sid) (.error "Message cannot be empty")])
  let failed : List Effect := [.emit (.socket sid) (.error "Failed to send message")]
  match p.text with
  | none => rejected
  | some text =>
    if textRejected (some text) then rejected
    else
      match findOneE env 0 s.store p.roomId with
      | none => (s, failed)
      | some none => (s, [.emit (.socket sid) (.error "Room not found")])
      | some (some chat) =>
        let msg := userMessage env p text
        let chat1 := chat.push msg
        match saveE env 1 s.store chat1 with
        | none => (s, failed)
        | some store1 =>
          let ai := aiStep env store1 chat1 p.roomId
          ({ s with store := ai.1 }, .emit (.room p.roomId) (.chatMessage msg) :: ai.2)

/-- The `chat:typing` handler. -/
def chatTyping (s : Server) (sid : String) (p : TypingPayload) : Server × List Effect :=
  (s, [.emit (.roomExcept p.roomId sid) (.chatUserTyping p.userId p.userName p.isTyping)])

/-- The `room:leave` handler. -/
def roomLeave (env : Env) (s : Server) (sid : String) (p : RoomPayload) : Server × List Effect :=
  ({ s with sockets := updateSocket sid (leaveRoom p.roomId) s.sockets },
   [.emit (.roomExcept p.roomId sid) (.roomUserLeft p.userId p.userName env.now)])

/-- The `disconnect` handler; by the time it runs the socket has left all its rooms,
and afterwards the socket is gone. -/
def disconnect (env : Env) (s : Server) (sid : String) : Server × List Effect :=
  let s1 : Server := { s with sockets := s.sockets.filter (fun k => k.id != sid) }
  match s.sockets.find? (fun k => k.id == sid) with
  | none => (s1, [])
  | some k =>
    if truthy k.roomId && truthy k.userName then
      (s1, [.emit (.roomExcept k.roomId sid) (.roomUserLeft k.userId k.userName env.now)])
    else (s1, [])

/-! ## HTTP routes (`routes/studyRoomChatRoutes.js`) -/

/-- Body of a response of `GET /:roomId`. -/
inductive HistoryResponse where
  | ok (roomId : String) (messages : List Message) (totalMessages : Nat)
  | failed
deriving DecidableEq

/-- The handler of `GET /api/study-room-chat/:roomId`, after the token check. -/
def getHistory (env : Env) (store : Store) (roomId : String) : Store × HistoryResponse :=
  match findOneE env 0 store (some roomId) with
  | none => (store, .failed)
  | some (some chat) => (store, .ok roomId chat.messages chat.messages.length)
  | some none =>
    match saveNewE env 1 store
        { roomId := some roomId, messages := [], createdAt := env.now, updatedAt := env.now } with
    | none => (store, .failed)
    | some store1 => (store1, .ok roomId [] 0)

/-- The object `stats` of a response of `GET /:roomId/stats`; `lastActivity` is `none` for
`null`. -/
structure Stats where
  totalMessages : Nat
  userMessages : Nat
  aiMessages : Nat
  lastActivity : Option Nat
deriving DecidableEq

/-- Body of a response of `GET /:roomId/stats`. -/
inductive StatsResponse where
  | ok (roomId : String) (stats : Stats)
  | failed
deriving DecidableEq

/-- The handler of `GET /api/study-room-chat/:roomId/stats`, after the token check.
A timestamp is a `Date` object, hence truthy: `lastMessage?.timestamp || chat.createdAt`
falls back to `createdAt` only when there is no last message. -/
def getStats (env : Env) (store : Store) (roomId : String) : Store × StatsResponse :=
  match findOneE env 0 store (some roomId) with
  | none => (store, .failed)
  | some none =>
    (store, .ok roomId
      { totalMessages := 0, userMessages := 0, aiMessages := 0, lastActivity := none })
  | some (some chat) =>
    let userMessages := (chat.messages.filter (fun m => m.sender == "user")).length
    let aiMessages := (chat.messages.filter (fun m => m.sender == "assistant")).length
    let lastMessage := chat.messages.get? (chat.messages.length - 1)
    (store, .ok roomId
      { totalMessages := chat.messages.length,
        userMessages := userMessages,
        aiMessages := aiMessages,
        lastActivity :=
          match lastMessage with
          | some m => some m.timestamp
          | none => some chat.createdAt })

/-! ## Event sequences -/

/-- One event arriving at the server from socket `sid`. -/
inductive Input where
  | connect (sid : String)
  | join (sid : String) (p : RoomPayload)
  | send (sid : String) (p : SendPayload)
  | typing (sid : String) (p : TypingPayload)
  | leave (sid : String) (p : RoomPayload)
  | disconnect (sid : String)

/-- Handle one event. -/
def step (env : Env) (s : Server) : Input → Server × List Effect
  | .connect sid => connect s sid
  | .join sid p => roomJoin env s sid p
  | .send sid p => chatSend env s sid p
  | .typing sid p => chatTyping s sid p
  | .leave sid p => roomLeave env s sid p
  | .disconnect sid => disconnect env s sid

/-- Handle events one after another, each in its own environment. -/
def run (s : Server) : List (Env × Input) → Server
  | [] => s
  | (env, i) :: rest => run (step env s i).1 rest

/-- The server before any connection, with a given collection. -/
def initial (store : Store) : Server := { sockets := [], store := store }

/-- An environment in which the store is up, the primary provider answers `a` and the
fallback answers `b`. -/
def envOf (now : Nat) (a b : Option String) : Env :=
  { now := now, storeUp := fun _ => true,
    generateAIResponse := fun _ _ => a, groqContent := fun _ _ _ => b }

/-! ## Client: who is typing (`components/study/GroupChat.jsx`) -/

/-- A record stored under `rooms/<roomId>/typing/<userId>` in the ephemeral store. -/
structure TypingRecord where
  username : Option String
  isTyping : Bool
deriving DecidableEq

/-- A value that is `undefined`, `null` or a string: a user id or a user name as the
client holds it (`localStorage.getItem` gives `null` or a string; a field of a relay event
can be absent, `null` or a string). `===` on such values is equality of this type. -/
inductive JsString where
  | undefined
  | null
  | str (s : String)
deriving DecidableEq

/-- A typing event arriving at an observing client: a `chat:userTyping` relay event, or a
snapshot of `rooms/<roomId>/typing` (`snapshot.val()`: `none` for `null`, else the records
by key, in the order of `Object.keys`). -/
inductive TypingEvent where
  | relay (userId userName : JsString) (isTyping : Bool)
  | snapshot (typingData : Option (List (String × TypingRecord)))
deriving DecidableEq

/-- The `chat:userTyping` handler: the new value of `typingUser`. -/
def onUserTyping (userId : JsString) (typingUserId userName : JsString)
    (typing : Bool) : JsString :=
  if typing && typingUserId != userId then userName else .null

/-- The expression `typingData[typingUserId]?.username || "Someone"`. -/
def typingUserName (record : TypingRecord) : String :=
  match record.username with
  | some name => if strTruthy name then name else "Someone"
  | none => "Someone"

/-- The `onValue` observer of the typing records: the new value of `typingUser`. A record
is an object, so `typingData[id]` is truthy for every key. -/
def onTypingSnapshot (userId : JsString)
    (typingData : Option (List (String × TypingRecord))) : JsString :=
  match typingData with
  | none => .null
  | some data =>
    match data.find? (fun kv => JsString.str kv.1 != userId && true) with
    | some (typingUserId, record) =>
      if strTruthy typingUserId then .str (typingUserName record) else .null
    | none => .null

/-- One typing event handled by the observer with user id `userId`; both handlers call
`setTypingUser` whatever the value before. -/
def onTypingEvent (userId : JsString) (_typingUser : JsString) : TypingEvent → JsString
  | .relay typingUserId userName typing => onUserTyping userId typingUserId userName typing
  | .snapshot typingData => onTypingSnapshot userId typingData

/-- The value of `typingUser` after a sequence of typing events, starting from
`useState(null)`. -/
def typingUserAfter (userId : JsString) (events : List TypingEvent) : JsString :=
  events.foldl (onTypingEvent userId) .null

/-! ## Client: own typing entry (`handleTypingChange` in `GroupChat.jsx`) -/

/-- What the component closes over: the `roomId` prop and the two values read from
`localStorage`. -/
structure ClientConfig where
  roomId : String
  userId : Option String
  username : Option String
deriving DecidableEq

/-- The part of the client that `handleTypingChange` reads and writes. Time is in
milliseconds.
* `entry`: the value stored at `rooms/<roomId>/typing/<userId>` (`none` when cleared).
* `connected`: `socketRef.current?.connected`.
* `timeoutRef`: `typingTimeoutRef.current`.
* `pending`: the timers set and neither fired nor cleared, as (id, time at which it fires).
* `nextTimerId`: the id the next `setTimeout` returns; ids are positive.
* `sent`: the `chat:typing` events emitted so far. -/
structure TypingClient where
  now : Nat
  connected : Bool
  entry : Option TypingRecord
  timeoutRef : Option Nat
  pending : List (Nat × Nat)
  nextTimerId : Nat
  sent : List TypingPayload
deriving DecidableEq

/-- The guarded `socketRef.current.emit("chat:typing", ...)`. -/
def emitTyping (cfg : ClientConfig) (c : TypingClient) (isTyping : Bool) : TypingClient :=
  if c.connected then
    { c with sent := c.sent ++ [⟨some cfg.roomId, cfg.userId, cfg.username, isTyping⟩] }
  else c

/-- The function `clearTimeout(id)` on the pending timers. -/
def clearTimeout (id : Nat) (pending : List (Nat × Nat)) : List (Nat × Nat) :=
  pending.filter fun x => x.1 != id

/-- The callback handed to `setTimeout`: clear the entry and signal the stop. -/
def expire (cfg : ClientConfig) (c : TypingClient) : TypingClient :=
  emitTyping cfg { c with entry := none } false

/-- The function `handleTypingChange(isTypingNow)`. -/
def handleTypingChange (cfg : ClientConfig) (c : TypingClient) (isTypingNow : Bool) :
    TypingClient :=
  if isTypingNow then
    let c1 := emitTyping cfg { c with entry := some ⟨cfg.username, true⟩ } true
    let cleared :=
      match c1.timeoutRef with
      | some id => if id != 0 then clearTimeout id c1.pending else c1.pending
      | none => c1.pending
    { c1 with
      pending := cleared ++ [(c1.nextTimerId, c1.now + 2000)],
      timeoutRef := some c1.nextTimerId,
      nextTimerId := c1.nextTimerId + 1 }
  else
    emitTyping cfg { c with entry := none } false

/-- Time passes by `ms` milliseconds: every pending timer whose time has come fires. -/
def elapse (cfg : ClientConfig) (c : TypingClient) (ms : Nat) : TypingClient :=
  let due := c.pending.filter fun x => decide (x.2 ≤ c.now + ms)
  let c1 : TypingClient :=
    { c with now := c.now + ms, pending := c.pending.filter fun x => !decide (x.2 ≤ c.now + ms) }
  due.foldl (fun c' _ => expire cfg c') c1

/-- What happens at the client: a local input, the passing of time, or a change of the
connection. -/
inductive ClientEvent where
  | input (isTypingNow : Bool)
  | wait (ms : Nat)
  | connection (up : Bool)
deriving DecidableEq

/-- One client event. -/
def clientStep (cfg : ClientConfig) (c : TypingClient) : ClientEvent → TypingClient
  | .input isTypingNow => handleTypingChange cfg c isTypingNow
  | .wait ms => elapse cfg c ms
  | .connection up => { c with connected := up }

/-- A sequence of client events, one after another. -/
def runClient (cfg : ClientConfig) (c : TypingClient) : List ClientEvent → TypingClient
  | [] => c
  | e :: rest => runClient cfg (clientStep cfg c e) rest

/-- The client when the component has mounted: no entry, no timer. -/
def initialClient (connected : Bool) : TypingClient :=
  { now := 0, connected := connected, entry := none, timeoutRef := none, pending := [],
    nextTimerId := 1, sent := [] }

/-- The time of the most recent typing input (`handleTypingChange(true)`) of a sequence of
client events that starts at time `now`, `last` being the one before the sequence. -/
def lastTypingFrom (now : Nat) (last : Option Nat) : List ClientEvent → Option Nat
  | [] => last
  | .input true :: rest => lastTypingFrom now (some now) rest
  | .input false :: rest => lastTypingFrom now last rest
  | .wait ms :: rest => lastTypingFrom (now + ms) last rest
  | .connection _ :: rest => lastTypingFrom now last rest

/-- What holds of the timers after every sequence of client events: there is no pending
timer, or exactly one, the one `typingTimeoutRef` refers to, which fires 2000 ms after
the most recent typing input; and there is one whenever the entry is set. -/
structure TimerInv (c : TypingClient) (last : Option Nat) : Prop where
  shape : c.pending = [] ∨
    ∃ id t, c.pending = [(id, t + 2000)] ∧ c.timeoutRef = some id ∧ id ≠ 0 ∧ last = some t
  idPos : c.nextTimerId ≠ 0
  active : c.entry ≠ none → c.pending ≠ []

/-! ## Vocabulary of the properties -/

/-- A text made of white space only (the empty text included). -/
def WhitespaceOnly (t : String) : Prop := ∀ c ∈ t.data, isJsWhitespace c = true

/-- A text that is missing, empty or made of white space only. -/
def Blank (text : Option String) : Prop := ∀ t, text = some t → WhitespaceOnly t

/-- All `chat:message` emits of a handler run, with their addressee. -/
def chatMessageEmits (effs : List Effect) : List (Target × Message) :=
  effs.filterMap fun
    | .emit t (.chatMessage m) => some (t, m)
    | _ => none

/-- All `chat:aiResponse` emits of a handler run, with their addressee. -/
def aiResponseEmits (effs : List Effect) : List (Target × Message) :=
  effs.filterMap fun
    | .emit t (.chatAiResponse m) => some (t, m)
    | _ => none

/-- All `error` emits of a handler run, with their addressee. -/
def errorEmits (effs : List Effect) : List (Target × String) :=
  effs.filterMap fun
    | .emit t (.error msg) => some (t, msg)
    | _ => none

/-- The messages of the room's log, the empty list when the room has no log. -/
def logOf (store : Store) (roomId : Option String) : List Message :=
  match findOne store roomId with
  | some chat => chat.messages
  | none => []

/-- The messages of a log written by participants. -/
def userMessages (log : List Message) : List Message :=
  log.filter fun m => m.sender == "user"

/-- An accepted `chat:send`: the text is not blank, the lookup goes through and finds the
room's log, and the save of the log with the user message goes through (the loaded log
and the new message pass validation and the store is up). -/
structure Accepted (env : Env) (s : Server) (p : SendPayload) (t : String)
    (chat : StudyRoomChat) : Prop where
  text : p.text = some t
  notBlank : ¬ WhitespaceOnly t
  lookup : env.storeUp 0 = true
  found : findOne s.store p.roomId = some chat
  valid : docValid chat = true
  userId : required p.userId = true
  userName : required p.userName = true
  saved : env.storeUp 1 = true

/-- The loaded document after `chat.messages.push(userMessage)`. -/
def withUserMessage (env : Env) (p : SendPayload) (t : String) (chat : StudyRoomChat) :
    StudyRoomChat :=
  chat.push (userMessage env p t)

/-- The store after the first `save` of an accepted `chat:send`. -/
def storeAfterUser (env : Env) (s : Server) (p : SendPayload) (t : String)
    (chat : StudyRoomChat) : Store :=
  replaceFirst ((withUserMessage env p t chat).touch env.now) s.store

/-- Every log of store `a` is still there in store `b`, as a prefix of the log in `b`:
nothing was dropped or reordered. -/
def Extends (a b : Store) : Prop :=
  ∀ r c, findOne a r = some c → ∃ c', findOne b r = some c' ∧ c.messages <+: c'.messages

/-- A `chat:send` (environment, socket id, payload) to room `r` that succeeds: the text
is not blank, userId and userName are not empty, and the lookup and the save of the
user message go through. -/
def Successful (r : Option String) (x : Env × String × SendPayload) : Prop :=
  x.2.2.roomId = r ∧ ¬ Blank x.2.2.text ∧ required x.2.2.userId = true ∧
    required x.2.2.userName = true ∧ x.1.storeUp 0 = true ∧ x.1.storeUp 1 = true

/-- The user message a `chat:send` constructs (none when the payload has no text). -/
def sentMessage (x : Env × String × SendPayload) : Option Message :=
  x.2.2.text.map (userMessage x.1 x.2.2)

/-- A sequence of `chat:send` events as inputs of the server. -/
def sendInputs (sends : List (Env × String × SendPayload)) : List (Env × Input) :=
  sends.map fun x => (x.1, Input.send x.2.1 x.2.2)

/-- The speaker of a context line as the specification words it: the message's userName
for sender 'user', the fixed label 'Assistant' otherwise. -/
def specSpeaker (m : Message) : String :=
  match m.sender == "user", m.userName with
  | true, some name => name
  | true, none => "undefined"
  | false, _ => "Assistant"

/-- The context as the specification words it: the last 10 messages of the log (all of
them if there are fewer), in log order, each rendered as speaker, colon, blank and text. -/
def specContextLines (log : List Message) : List String :=
  ((log.reverse.take 10).reverse).map fun m => specSpeaker m ++ ": " ++ m.text

/-- Effects of handling events one after another, in the order they happen. -/
def runEffects (s : Server) : List (Env × Input) → List Effect
  | [] => []
  | (env, i) :: rest => (step env s i).2 ++ runEffects (step env s i).1 rest

/-- All `room:userLeft` emits of a list of effects, with their addressee. -/
def userLeftEmits (effs : List Effect) : List Target :=
  effs.filterMap fun
    | .emit t (.roomUserLeft _ _ _) => some t
    | _ => none

/-! ## Concrete data used in the examples below -/

/-- A store with one empty log, for room `R1`. -/
def storeR1 : Store := [{ roomId := some "R1", messages := [], createdAt := 0, updatedAt := 0 }]

/-- A server with no socket and an empty log for room `R1`. -/
def serverR1 : Server := { sockets := [], store := storeR1 }

/-- A `chat:send` of Ann to room `R1` whose text is padded with blanks. -/
def paddedHello : SendPayload :=
  { roomId := some "R1", userId := some "u1", userName := some "Ann", text := some " hello " }

/-- The user message of `paddedHello` at time 7. -/
def helloMessage : Message :=
  { sender := "user", userId := some "u1", userName := some "Ann", text := "hello", timestamp := 7 }

/-- A `chat:send` of Bob to room `R1`. -/
def bobBye : SendPayload :=
  { roomId := some "R1", userId := some "u2", userName := some "Bob", text := some "bye" }

/-- Two sends to room `R1`: Ann's is answered by the primary provider, Bob's gets the
apology. -/
def twoSends : List (Env × String × SendPayload) :=
  [(envOf 7 (some "Hi Ann") none, "s1", paddedHello), (envOf 9 none none, "s2", bobBye)]

/-- An environment in which the store is up and the providers answer nothing. -/
def envUp : Env := envOf 3 none none

/-- Ann's `room:join` of room `R1`. -/
def annJoinsR1 : RoomPayload := { roomId := some "R1", userId := some "u1", userName := some "Ann" }

/-- Ann's `room:join` of room `R2`. -/
def annJoinsR2 : RoomPayload := { roomId := some "R2", userId := some "u1", userName := some "Ann" }

/-- A `room:join` without roomId. -/
def zedJoinsNothing : RoomPayload := { roomId := none, userId := some "u9", userName := some "Zed" }

/-- The server after socket `s1` connected and joined room `R1` as Ann. -/
def annInR1 : Server :=
  run (initial storeR1) [(envUp, .connect "s1"), (envUp, .join "s1" annJoinsR1)]

/-- The server after socket `s1` connected, joined room `R1` and then room `R2`. -/
def annInR1ThenR2 : Server :=
  run (initial storeR1)
    [(envUp, .connect "s1"), (envUp, .join "s1" annJoinsR1), (envUp, .join "s1" annJoinsR2)]

/-- Bob's `room:join` of room `R1`. -/
def bobJoinsR1 : RoomPayload := { roomId := some "R1", userId := some "u2", userName := some "Bob" }

/-- The server after Bob's socket `s2` joined room `R1` and socket `s1` connected
without joining anything. -/
def bobInR1 : Server :=
  run (initial storeR1)
    [(envUp, .connect "s2"), (envUp, .join "s2" bobJoinsR1), (envUp, .connect "s1")]

/-- A store with a log of three messages for room `R1`, created at time 2. -/
def storeThree : Store :=
  [{ roomId := some "R1",
     messages := [helloMessage, ⟨"assistant", none, none, "Hi Ann", 7⟩,
       ⟨"user", some "u2", some "Bob", "bye", 9⟩],
     createdAt := 2, updatedAt := 9 }]

/-- Ann's client in room `R1`. -/
def annClient : ClientConfig := { roomId := "R1", userId := some "u1", username := some "Ann" }

/-- A log of eleven messages for room `R1`, questions of Ann and Bob in turn, each but
the last one answered by the assistant. -/
def logEleven : List Message :=
  [⟨"user", some "u1", some "Ann", "q1", 1⟩, ⟨"assistant", none, none, "a1", 1⟩,
   ⟨"user", some "u2", some "Bob", "q2", 2⟩, ⟨"assistant", none, none, "a2", 2⟩,
   ⟨"user", some "u1", some "Ann", "q3", 3⟩, ⟨"assistant", none, none, "a3", 3⟩,
   ⟨"user", some "u2", some "Bob", "q4", 4⟩, ⟨"assistant", none, none, "a4", 4⟩,
   ⟨"user", some "u1", some "Ann", "q5", 5⟩, ⟨"assistant", none, none, "a5", 5⟩,
   ⟨"user", some "u2", some "Bob", "q6", 6⟩]

/-- A server with no socket and the log of eleven messages for room `R1`. -/
def serverEleven : Server :=
  { sockets := [], store := [{ roomId := some "R1", messages := logEleven, createdAt := 0,
                               updatedAt := 6 }] }

/-! ## Lemmas on trimming -/

theorem trimChars_eq_nil_iff (cs : List Char) :
    trimChars cs = [] ↔ ∀ c ∈ cs, isJsWhitespace c = true := by
  unfold trimChars
  rw [List.reverse_eq_nil_iff, List.dropWhile_eq_nil_iff]
  constructor
  · intro h
    by_contra hne
    have hd : cs.dropWhile isJsWhitespace ≠ [] := by
      rw [Ne, List.dropWhile_eq_nil_iff]
      exact hne
    have h1 := List.head_dropWhile_not isJsWhitespace cs hd
    have h2 := h _ (List.mem_reverse.mpr (List.head_mem hd))
    rw [h2] at h1
    exact absurd h1 (by decide)
  · intro h c hc
    have hnil : cs.dropWhile isJsWhitespace = [] := List.dropWhile_eq_nil_iff.mpr h
    rw [hnil] at hc
    simp at hc

theorem textRejected_some_iff (t : String) :
    textRejected (some t) = true ↔ WhitespaceOnly t := by
  unfold textRejected WhitespaceOnly strTruthy jsTrim
  simp only [Bool.not_not, Bool.or_eq_true, List.isEmpty_iff]
  rw [trimChars_eq_nil_iff]
  constructor
  · rintro (h | h)
    · intro c hc
      rw [h] at hc
      simp at hc
    · exact h
  · intro h
    exact Or.inr h

theorem textRejected_iff_blank (text : Option String) :
    textRejected text = true ↔ Blank text := by
  cases text with
  | none => simp [textRejected, Blank]
  | some t =>
    rw [textRejected_some_iff]
    simp [Blank]

theorem strTruthy_jsTrim {t : String} (h : ¬ WhitespaceOnly t) : strTruthy (jsTrim t) = true := by
  have h1 : textRejected (some t) ≠ true := fun hr => h ((textRejected_some_iff t).mp hr)
  unfold textRejected at h1
  simp only [Bool.not_eq_true, Bool.or_eq_false_iff, Bool.not_eq_false_eq_eq_true] at h1
  exact h1.2

/-! ## Lemmas on the store -/

theorem findOne_replaceFirst_same (doc chat : StudyRoomChat) (store : Store)
    (h : findOne store doc.roomId = some chat) :
    findOne (replaceFirst doc store) doc.roomId = some doc := by
  induction store with
  | nil => simp [findOne] at h
  | cons d ds ih =>
    unfold replaceFirst
    by_cases hd : (d.roomId == doc.roomId) = true
    · simp [hd, findOne, List.find?]
    · simp only [Bool.not_eq_true] at hd
      simp only [hd, Bool.false_eq_true, if_false]
      simp only [findOne, List.find?, hd] at h ⊢
      exact ih h

theorem findOne_replaceFirst_other (doc : StudyRoomChat) (store : Store)
    (r : Option String) (h : r ≠ doc.roomId) :
    findOne (replaceFirst doc store) r = findOne store r := by
  induction store with
  | nil => rfl
  | cons d ds ih =>
    unfold replaceFirst
    by_cases hd : (d.roomId == doc.roomId) = true
    · have hdr : d.roomId = doc.roomId := by simpa using hd
      have h1 : (d.roomId == r) = false := by
        simp only [beq_eq_false_iff_ne, ne_eq]
        intro hh
        exact h (hh ▸ hdr)
      have h2 : (doc.roomId == r) = false := by
        simp only [beq_eq_false_iff_ne, ne_eq]
        intro hh
        exact h hh.symm
      simp [hd, findOne, List.find?, h1, h2]
    · simp only [hd, if_false]
      simp only [findOne, List.find?] at ih ⊢
      rw [ih]

theorem findOne_roomId {store : Store} {r : Option String} {chat : StudyRoomChat}
    (h : findOne store r = some chat) : chat.roomId = r := by
  have := List.find?_some h
  simpa using this

theorem findOne_append_new (store : Store) (doc : StudyRoomChat) (r : Option String)
    (h : findOne store r = none) :
    findOne (store ++ [doc]) r = if doc.roomId = r then some doc else none := by
  unfold findOne at h ⊢
  rw [List.find?_append, h]
  by_cases hd : doc.roomId = r
  · simp [List.find?, hd]
  · have hb : (doc.roomId == r) = false := by simpa using hd
    simp [List.find?, hd, hb]

/-! ## Lemmas on `chat:send` -/

@[simp] theorem push_roomId (chat : StudyRoomChat) (m : Message) :
    (chat.push m).roomId = chat.roomId := rfl

@[simp] theorem push_messages (chat : StudyRoomChat) (m : Message) :
    (chat.push m).messages = chat.messages ++ [m] := rfl

@[simp] theorem touch_roomId (chat : StudyRoomChat) (now : Nat) :
    (chat.touch now).roomId = chat.roomId := rfl

@[simp] theorem touch_messages (chat : StudyRoomChat) (now : Nat) :
    (chat.touch now).messages = chat.messages := rfl

theorem logOf_replaceFirst (doc : StudyRoomChat) {chat : StudyRoomChat} {store : Store}
    (h : findOne store doc.roomId = some chat) :
    logOf (replaceFirst doc store) doc.roomId = doc.messages := by
  simp [logOf, findOne_replaceFirst_same doc chat store h]

theorem messageValid_userMessage {env : Env} {p : SendPayload} {t : String}
    (hid : required p.userId = true) (hname : required p.userName = true)
    (hnb : ¬ WhitespaceOnly t) : messageValid (userMessage env p t) = true := by
  simp [messageValid, userMessage, hid, hname, strTruthy_jsTrim hnb]

theorem docValid_push {chat : StudyRoomChat} {m : Message}
    (h : docValid chat = true) (hm : messageValid m = true) :
    docValid (chat.push m) = true := by
  simp only [docValid, Bool.and_eq_true, List.all_append, List.all_cons, List.all_nil,
    Bool.and_true, push_roomId, push_messages] at h ⊢
  exact ⟨h.1, h.2, hm⟩

theorem docValid_push_iff (chat : StudyRoomChat) (m : Message) :
    docValid (chat.push m) = true ↔ docValid chat = true ∧ messageValid m = true := by
  simp only [docValid, Bool.and_eq_true, List.all_append, List.all_cons, List.all_nil,
    Bool.and_true, push_roomId, push_messages]
  tauto

theorem docValid_withUserMessage {env : Env} {s : Server} {p : SendPayload} {t : String}
    {chat : StudyRoomChat} (h : Accepted env s p t chat) :
    docValid (withUserMessage env p t chat) = true :=
  docValid_push h.valid (messageValid_userMessage h.userId h.userName h.notBlank)

theorem chatSend_accepted {env : Env} {s : Server} {p : SendPayload} {t : String}
    {chat : StudyRoomChat} (sid : String) (h : Accepted env s p t chat) :
    chatSend env s sid p =
      ({ s with store :=
          (aiStep env (storeAfterUser env s p t chat) (withUserMessage env p t chat) p.roomId).1 },
       .emit (.room p.roomId) (.chatMessage (userMessage env p t)) ::
          (aiStep env (storeAfterUser env s p t chat) (withUserMessage env p t chat) p.roomId).2) := by
  have hrej : textRejected (some t) = false := by
    rw [← Bool.not_eq_true, textRejected_some_iff]
    exact h.notBlank
  have hv := docValid_withUserMessage h
  unfold withUserMessage at hv
  simp only [chatSend, h.text, hrej, findOneE, h.lookup, h.found, saveE, hv, h.saved,
    Bool.and_self, if_true, Bool.false_eq_true, if_false, storeAfterUser, withUserMessage]

theorem chatSend_rejected (env : Env) (s : Server) (sid : String) (p : SendPayload)
    (h : Blank p.text) :
    chatSend env s sid p = (s, [.emit (.socket sid) (.error "Message cannot be empty")]) := by
  unfold chatSend
  cases htext : p.text with
  | none => rfl
  | some t =>
    have : textRejected (some t) = true := (textRejected_some_iff t).mpr (h t htext)
    simp [this]

theorem withUserMessage_roomId {env : Env} {s : Server} {p : SendPayload} {t : String}
    {chat : StudyRoomChat} (h : Accepted env s p t chat) :
    (withUserMessage env p t chat).roomId = p.roomId := by
  have := findOne_roomId h.found
  simpa [withUserMessage] using this

theorem findOne_storeAfterUser {env : Env} {s : Server} {p : SendPayload} {t : String}
    {chat : StudyRoomChat} (h : Accepted env s p t chat) :
    findOne (storeAfterUser env s p t chat) p.roomId =
      some ((withUserMessage env p t chat).touch env.now) := by
  have hr := withUserMessage_roomId h
  have := findOne_replaceFirst_same ((withUserMessage env p t chat).touch env.now) chat s.store
    (by rw [touch_roomId, hr]; exact h.found)
  rw [touch_roomId, hr] at this
  exact this

theorem logOf_storeAfterUser {env : Env} {s : Server} {p : SendPayload} {t : String}
    {chat : StudyRoomChat} (h : Accepted env s p t chat) :
    logOf (storeAfterUser env s p t chat) p.roomId = chat.messages ++ [userMessage env p t] := by
  simp [logOf, findOne_storeAfterUser h, withUserMessage]

/-! ## Lemmas on the AI step -/

theorem askProviders_calls (env : Env) (prompt : String) :
    (askProviders env prompt).1 = [.primaryCall prompt aiParams] ∨
    (askProviders env prompt).1 =
      [.primaryCall prompt aiParams, .fallbackCall groqModel prompt aiParams] := by
  unfold askProviders
  cases env.generateAIResponse prompt aiParams <;> simp

theorem askProviders_fallback {env : Env} {prompt : String}
    (h : env.generateAIResponse prompt aiParams = none) :
    askProviders env prompt =
      ([.primaryCall prompt aiParams, .fallbackCall groqModel prompt aiParams],
       env.groqContent groqModel prompt aiParams) := by
  simp [askProviders, h]

theorem aiStep_reply {env : Env} (store : Store) {chat : StudyRoomChat} (r : Option String)
    {a : String}
    (hc : (askProviders env (aiPrompt (buildContext chat.messages))).2 = some a)
    (ha : strTruthy a = true) (hv : docValid chat = true) (hup : env.storeUp 2 = true) :
    aiStep env store chat r =
      (replaceFirst ((chat.push (assistantMessage env a)).touch env.now) store,
       (askProviders env (aiPrompt (buildContext chat.messages))).1 ++
        [.emit (.room r) (.chatAiResponse (assistantMessage env a))]) := by
  have hm : messageValid (assistantMessage env a) = true := by
    simp [messageValid, assistantMessage, ha]
  have hd := docValid_push hv hm
  simp only [aiStep, hc, saveE, hd, hup, Bool.and_self, if_true]

theorem aiStep_noReply {env : Env} (store : Store) {chat : StudyRoomChat} (r : Option String)
    (hc : (askProviders env (aiPrompt (buildContext chat.messages))).2 = none) :
    aiStep env store chat r =
      (store, (askProviders env (aiPrompt (buildContext chat.messages))).1 ++
        [.emit (.room r) (.chatAiResponse (assistantMessage env apologyText))]) := by
  simp only [aiStep, hc]

theorem aiStep_notSaved {env : Env} (store : Store) {chat : StudyRoomChat} (r : Option String)
    {a : String}
    (hc : (askProviders env (aiPrompt (buildContext chat.messages))).2 = some a)
    (hs : (docValid (chat.push (assistantMessage env a)) && env.storeUp 2) = false) :
    aiStep env store chat r =
      (store, (askProviders env (aiPrompt (buildContext chat.messages))).1 ++
        [.emit (.room r) (.chatAiResponse (assistantMessage env apologyText))]) := by
  simp only [aiStep, hc, saveE, hs, if_false, Bool.false_eq_true]

/-- The AI step either leaves the store alone and broadcasts the apology, or writes the
log with one assistant message pushed and broadcasts that message. -/
theorem aiStep_cases (env : Env) (store : Store) (chat : StudyRoomChat) (r : Option String) :
    aiStep env store chat r =
        (store, (askProviders env (aiPrompt (buildContext chat.messages))).1 ++
          [.emit (.room r) (.chatAiResponse (assistantMessage env apologyText))]) ∨
    ∃ a, (askProviders env (aiPrompt (buildContext chat.messages))).2 = some a ∧
      strTruthy a = true ∧
      aiStep env store chat r =
        (replaceFirst ((chat.push (assistantMessage env a)).touch env.now) store,
         (askProviders env (aiPrompt (buildContext chat.messages))).1 ++
          [.emit (.room r) (.chatAiResponse (assistantMessage env a))]) := by
  cases hc : (askProviders env (aiPrompt (buildContext chat.messages))).2 with
  | none => exact Or.inl (aiStep_noReply store r hc)
  | some a =>
    cases hs : (docValid (chat.push (assistantMessage env a)) && env.storeUp 2) with
    | false => exact Or.inl (aiStep_notSaved store r hc hs)
    | true =>
      right
      refine ⟨a, rfl, ?_, ?_⟩
      · rw [Bool.and_eq_true, docValid_push_iff] at hs
        have hm := hs.1.2
        simp only [messageValid, assistantMessage, Bool.and_eq_true] at hm
        exact hm.2
      · simp only [aiStep, hc, saveE, hs, if_true]

theorem chatMessageEmits_aiStep (env : Env) (store : Store) (chat : StudyRoomChat)
    (r : Option String) : chatMessageEmits (aiStep env store chat r).2 = [] := by
  rcases aiStep_cases env store chat r with h | ⟨a, _, _, h⟩ <;>
    rcases askProviders_calls env (aiPrompt (buildContext chat.messages)) with hc | hc <;>
    simp [h, hc, chatMessageEmits]

/-- The log of the room after the AI step: unchanged, or with one assistant message
pushed onto the loaded document. -/
theorem logOf_aiStep (env : Env) (store : Store) (chat c : StudyRoomChat) (r : Option String)
    (h : findOne store chat.roomId = some c) :
    logOf (aiStep env store chat r).1 chat.roomId = logOf store chat.roomId ∨
    ∃ a, logOf (aiStep env store chat r).1 chat.roomId
      = chat.messages ++ [assistantMessage env a] := by
  rcases aiStep_cases env store chat r with hai | ⟨a, _, _, hai⟩
  · left
    rw [hai]
  · right
    refine ⟨a, ?_⟩
    rw [hai]
    exact logOf_replaceFirst ((chat.push (assistantMessage env a)).touch env.now) h

theorem strTruthy_iff (a : String) : strTruthy a = true ↔ a ≠ "" := by
  unfold strTruthy
  rw [Bool.not_eq_true', ← Bool.not_eq_true, List.isEmpty_iff]
  constructor
  · intro h he
    exact h (by rw [he])
  · intro h he
    exact h (String.ext he)

theorem accepted_paddedHello (a b : Option String) :
    Accepted (envOf 7 a b) serverR1 paddedHello " hello " ⟨some "R1", [], 0, 0⟩ :=
  ⟨rfl, by rw [← textRejected_some_iff]; decide, rfl, by decide, by decide, by decide,
    by decide, rfl⟩

theorem not_whitespaceOnly_hello : ¬ WhitespaceOnly " hello " := by
  rw [← textRejected_some_iff]
  decide

/-! ## C1: an accepted send persists and broadcasts one user message -/

/-- C1 (counterexample): the text " hello " is not blank, the room's log exists and the
store is up, yet the text of the persisted and of the broadcast message is "hello",
not the text of the payload. -/
theorem chatSend_text_not_verbatim :
    ¬ WhitespaceOnly " hello " ∧
    findOne serverR1.store paddedHello.roomId = some ⟨some "R1", [], 0, 0⟩ ∧
    logOf (chatSend (envOf 7 (some "Hi Ann") none) serverR1 "s1" paddedHello).1.store
        (some "R1") = [helloMessage, ⟨"assistant", none, none, "Hi Ann", 7⟩] ∧
    chatMessageEmits (chatSend (envOf 7 (some "Hi Ann") none) serverR1 "s1" paddedHello).2 =
        [(.room (some "R1"), helloMessage)] ∧
    some helloMessage.text ≠ paddedHello.text := by
  refine ⟨not_whitespaceOnly_hello, ?_, ?_, ?_, ?_⟩ <;> decide

/-- C1 (amended): for every text that is not blank, a chat:send with non-empty userId
and userName to a room whose log exists and passes validation, with the lookup and the
first save going through, appends exactly one user message to that room's log (what
follows it in the log is no user message), broadcasts exactly one chat:message, to the
room, and the text of both is the trimmed text of the payload. -/
theorem chatSend_persists_and_broadcasts_trimmed_text
    (env : Env) (s : Server) (sid : String) (p : SendPayload) (t : String)
    (chat : StudyRoomChat)
    (htext : p.text = some t) (hnb : ¬ WhitespaceOnly t)
    (hid : required p.userId = true) (hname : required p.userName = true)
    (hfound : findOne s.store p.roomId = some chat) (hvalid : docValid chat = true)
    (hup0 : env.storeUp 0 = true) (hup1 : env.storeUp 1 = true) :
    ∃ rest : List Message,
      logOf (chatSend env s sid p).1.store p.roomId
          = chat.messages ++ userMessage env p t :: rest ∧
      userMessages rest = [] ∧
      chatMessageEmits (chatSend env s sid p).2 = [(.room p.roomId, userMessage env p t)] ∧
      (userMessage env p t).sender = "user" ∧
      (userMessage env p t).text = jsTrim t := by
  have h : Accepted env s p t chat := ⟨htext, hnb, hup0, hfound, hvalid, hid, hname, hup1⟩
  have hfind := findOne_storeAfterUser h
  have hrid := withUserMessage_roomId h
  have hemit : chatMessageEmits (chatSend env s sid p).2
      = [(.room p.roomId, userMessage env p t)] := by
    rw [chatSend_accepted sid h]
    have := chatMessageEmits_aiStep env (storeAfterUser env s p t chat)
      (withUserMessage env p t chat) p.roomId
    simp only [chatMessageEmits, List.filterMap_cons] at this ⊢
    rw [this]
  rw [← hrid] at hfind
  rcases logOf_aiStep env (storeAfterUser env s p t chat) (withUserMessage env p t chat) _
      p.roomId hfind with hl | ⟨a, hl⟩
  · refine ⟨[], ?_, rfl, hemit, rfl, rfl⟩
    rw [chatSend_accepted sid h]
    rw [hrid] at hl
    simp only [hl, logOf_storeAfterUser h]
  · refine ⟨[assistantMessage env a], ?_, ?_, hemit, rfl, rfl⟩
    · rw [chatSend_accepted sid h]
      rw [hrid] at hl
      simp only [hl]
      simp [withUserMessage]
    · simp [userMessages, assistantMessage]

/-- C1 (witness): the amended statement applied to the padded text " hello ". -/
theorem chatSend_persists_and_broadcasts_trimmed_text_witness :
    ∃ rest : List Message,
      logOf (chatSend (envOf 7 (some "Hi Ann") none) serverR1 "s1" paddedHello).1.store
          paddedHello.roomId
          = [] ++ userMessage (envOf 7 (some "Hi Ann") none) paddedHello " hello " :: rest ∧
      userMessages rest = [] ∧
      chatMessageEmits (chatSend (envOf 7 (some "Hi Ann") none) serverR1 "s1" paddedHello).2 =
        [(.room paddedHello.roomId,
          userMessage (envOf 7 (some "Hi Ann") none) paddedHello " hello ")] ∧
      (userMessage (envOf 7 (some "Hi Ann") none) paddedHello " hello ").sender = "user" ∧
      (userMessage (envOf 7 (some "Hi Ann") none) paddedHello " hello ").text
        = jsTrim " hello " :=
  chatSend_persists_and_broadcasts_trimmed_text (envOf 7 (some "Hi Ann") none) serverR1 "s1"
    paddedHello " hello " ⟨some "R1", [], 0, 0⟩ rfl not_whitespaceOnly_hello
    (by decide) (by decide) (by decide) (by decide) rfl rfl

/-! ## C2: a blank text is rejected -/

/-- C2: for every chat:send whose text is missing, empty or made of white space only,
the server state (the store included) is unchanged, nothing is broadcast to any room,
no AI provider is called, and the only effect is one error event
'Message cannot be empty', which the originating socket and no other receives. -/
theorem chatSend_blank_text_rejected
    (env : Env) (s : Server) (sid : String) (p : SendPayload) (h : Blank p.text) :
    (chatSend env s sid p).1 = s ∧
    (chatSend env s sid p).2 = [.emit (.socket sid) (.error "Message cannot be empty")] ∧
    (∀ r, roomBroadcasts r (chatSend env s sid p).2 = []) ∧
    aiCalls (chatSend env s sid p).2 = [] ∧
    ∀ k : Socket, received k (chatSend env s sid p).2 =
      if k.id = sid then [.error "Message cannot be empty"] else [] := by
  rw [chatSend_rejected env s sid p h]
  refine ⟨rfl, rfl, fun r => rfl, rfl, fun k => ?_⟩
  by_cases hk : k.id = sid <;> simp [received, delivers, hk]

/-- C2 (witness): a text of three blanks sent to the server with the log of room R1. -/
theorem chatSend_blank_text_rejected_witness :
    (chatSend (envOf 7 (some "Hi") none) serverR1 "s1"
        ⟨some "R1", some "u1", some "Ann", some "   "⟩).1 = serverR1 ∧
    (chatSend (envOf 7 (some "Hi") none) serverR1 "s1"
        ⟨some "R1", some "u1", some "Ann", some "   "⟩).2
      = [.emit (.socket "s1") (.error "Message cannot be empty")] ∧
    (∀ r, roomBroadcasts r (chatSend (envOf 7 (some "Hi") none) serverR1 "s1"
        ⟨some "R1", some "u1", some "Ann", some "   "⟩).2 = []) ∧
    aiCalls (chatSend (envOf 7 (some "Hi") none) serverR1 "s1"
        ⟨some "R1", some "u1", some "Ann", some "   "⟩).2 = [] ∧
    ∀ k : Socket, received k (chatSend (envOf 7 (some "Hi") none) serverR1 "s1"
        ⟨some "R1", some "u1", some "Ann", some "   "⟩).2 =
      if k.id = "s1" then [.error "Message cannot be empty"] else [] :=
  chatSend_blank_text_rejected (envOf 7 (some "Hi") none) serverR1 "s1"
    ⟨some "R1", some "u1", some "Ann", some "   "⟩
    ((textRejected_iff_blank _).mp (by decide))

/-! ## C3: the fallback provider answers -/

/-- C3 (counterexample): the send is accepted, the primary provider fails and the
fallback returns the empty text; no assistant message is appended to the log and what is
broadcast as chat:aiResponse is the apology, not the text of the fallback. -/
theorem chatSend_empty_fallback_text_not_persisted :
    Accepted (envOf 7 none (some "")) serverR1 paddedHello " hello " ⟨some "R1", [], 0, 0⟩ ∧
    (∀ prompt, (envOf 7 none (some "")).generateAIResponse prompt aiParams = none) ∧
    (∀ prompt, (envOf 7 none (some "")).groqContent groqModel prompt aiParams = some "") ∧
    logOf (chatSend (envOf 7 none (some "")) serverR1 "s1" paddedHello).1.store (some "R1")
      = [helloMessage] ∧
    aiResponseEmits (chatSend (envOf 7 none (some "")) serverR1 "s1" paddedHello).2
      = [(.room (some "R1"), ⟨"assistant", none, none, apologyText, 7⟩)] ∧
    apologyText ≠ "" := by
  refine ⟨accepted_paddedHello none (some ""), fun _ => rfl, fun _ => rfl, ?_, ?_, ?_⟩ <;>
    decide

/-- C3 (amended): for every accepted chat:send in which the primary provider fails, the
fallback returns a non-empty text `a` and the second save goes through, the room's log
afterwards is the log before, the user message and then one assistant message, exactly
one chat:aiResponse is emitted, to the room, and the text of both is `a`. -/
theorem chatSend_fallback_reply_persisted_and_broadcast
    (env : Env) (s : Server) (sid : String) (p : SendPayload) (t : String)
    (chat : StudyRoomChat) (a : String)
    (h : Accepted env s p t chat) (hup : env.storeUp 2 = true)
    (hprimary : env.generateAIResponse
      (aiPrompt (buildContext (chat.messages ++ [userMessage env p t]))) aiParams = none)
    (hfallback : env.groqContent groqModel
      (aiPrompt (buildContext (chat.messages ++ [userMessage env p t]))) aiParams = some a)
    (ha : a ≠ "") :
    logOf (chatSend env s sid p).1.store p.roomId
      = chat.messages ++ [userMessage env p t, assistantMessage env a] ∧
    aiResponseEmits (chatSend env s sid p).2 = [(.room p.roomId, assistantMessage env a)] ∧
    (assistantMessage env a).sender = "assistant" ∧
    (assistantMessage env a).text = a := by
  have hfind := findOne_storeAfterUser h
  have hrid := withUserMessage_roomId h
  have hask := askProviders_fallback hprimary
  have hc : (askProviders env
      (aiPrompt (buildContext (withUserMessage env p t chat).messages))).2 = some a := by
    simp only [withUserMessage, push_messages]
    rw [hask, hfallback]
  have hai := aiStep_reply (storeAfterUser env s p t chat) p.roomId hc
    ((strTruthy_iff a).mpr ha) (docValid_withUserMessage h) hup
  rw [chatSend_accepted sid h, hai]
  refine ⟨?_, ?_, rfl, rfl⟩
  · have hl := logOf_replaceFirst
      (((withUserMessage env p t chat).push (assistantMessage env a)).touch env.now)
      (show findOne (storeAfterUser env s p t chat)
          (((withUserMessage env p t chat).push (assistantMessage env a)).touch env.now).roomId
          = some ((withUserMessage env p t chat).touch env.now) by
        rw [touch_roomId, push_roomId, hrid]; exact hfind)
    rw [touch_roomId, push_roomId, hrid] at hl
    simp only [hl]
    simp [withUserMessage]
  · simp only [withUserMessage, push_messages]
    rw [hask]
    simp [aiResponseEmits]

/-- C3 (witness): Ann says " hello ", the primary provider fails and the fallback
answers "Hi Ann". -/
theorem chatSend_fallback_reply_persisted_and_broadcast_witness :
    logOf (chatSend (envOf 7 none (some "Hi Ann")) serverR1 "s1" paddedHello).1.store
        paddedHello.roomId
      = [] ++ [userMessage (envOf 7 none (some "Hi Ann")) paddedHello " hello ",
          assistantMessage (envOf 7 none (some "Hi Ann")) "Hi Ann"] ∧
    aiResponseEmits (chatSend (envOf 7 none (some "Hi Ann")) serverR1 "s1" paddedHello).2
      = [(.room paddedHello.roomId, assistantMessage (envOf 7 none (some "Hi Ann")) "Hi Ann")] ∧
    (assistantMessage (envOf 7 none (some "Hi Ann")) "Hi Ann").sender = "assistant" ∧
    (assistantMessage (envOf 7 none (some "Hi Ann")) "Hi Ann").text = "Hi Ann" :=
  chatSend_fallback_reply_persisted_and_broadcast (envOf 7 none (some "Hi Ann")) serverR1 "s1"
    paddedHello " hello " ⟨some "R1", [], 0, 0⟩ "Hi Ann"
    (accepted_paddedHello none (some "Hi Ann")) rfl rfl rfl (by decide)

/-! ## C4: both providers fail -/

/-- C4: for every accepted chat:send in which the primary and the fallback provider both
fail, the room's log afterwards is the log before plus the one user message (no assistant
message is appended), exactly one chat:aiResponse is emitted, to the room, carrying the
fixed apology text with sender 'assistant', and no error event is emitted. -/
theorem chatSend_both_providers_fail
    (env : Env) (s : Server) (sid : String) (p : SendPayload) (t : String)
    (chat : StudyRoomChat)
    (h : Accepted env s p t chat)
    (hprimary : env.generateAIResponse
      (aiPrompt (buildContext (chat.messages ++ [userMessage env p t]))) aiParams = none)
    (hfallback : env.groqContent groqModel
      (aiPrompt (buildContext (chat.messages ++ [userMessage env p t]))) aiParams = none) :
    logOf (chatSend env s sid p).1.store p.roomId = chat.messages ++ [userMessage env p t] ∧
    aiResponseEmits (chatSend env s sid p).2
      = [(.room p.roomId, assistantMessage env apologyText)] ∧
    (assistantMessage env apologyText).sender = "assistant" ∧
    (assistantMessage env apologyText).text
      = "Sorry, I\x27m having trouble responding right now. Please try again." ∧
    errorEmits (chatSend env s sid p).2 = [] ∧
    sentToSocket sid (chatSend env s sid p).2 = [] := by
  have hask := askProviders_fallback hprimary
  have hc : (askProviders env
      (aiPrompt (buildContext (withUserMessage env p t chat).messages))).2 = none := by
    simp only [withUserMessage, push_messages]
    rw [hask, hfallback]
  have hai := aiStep_noReply (storeAfterUser env s p t chat) p.roomId hc
  rw [chatSend_accepted sid h, hai]
  refine ⟨?_, ?_, rfl, rfl, ?_, ?_⟩
  · exact logOf_storeAfterUser h
  · simp only [withUserMessage, push_messages]
    rw [hask]
    simp [aiResponseEmits]
  · simp only [withUserMessage, push_messages]
    rw [hask]
    simp [errorEmits]
  · simp only [withUserMessage, push_messages]
    rw [hask]
    simp [sentToSocket]

/-- C4 (witness): Ann says " hello " and both providers fail. -/
theorem chatSend_both_providers_fail_witness :
    logOf (chatSend (envOf 7 none none) serverR1 "s1" paddedHello).1.store paddedHello.roomId
      = [] ++ [userMessage (envOf 7 none none) paddedHello " hello "] ∧
    aiResponseEmits (chatSend (envOf 7 none none) serverR1 "s1" paddedHello).2
      = [(.room paddedHello.roomId, assistantMessage (envOf 7 none none) apologyText)] ∧
    (assistantMessage (envOf 7 none none) apologyText).sender = "assistant" ∧
    (assistantMessage (envOf 7 none none) apologyText).text
      = "Sorry, I\x27m having trouble responding right now. Please try again." ∧
    errorEmits (chatSend (envOf 7 none none) serverR1 "s1" paddedHello).2 = [] ∧
    sentToSocket "s1" (chatSend (envOf 7 none none) serverR1 "s1" paddedHello).2 = [] :=
  chatSend_both_providers_fail (envOf 7 none none) serverR1 "s1" paddedHello " hello "
    ⟨some "R1", [], 0, 0⟩ (accepted_paddedHello none none) rfl rfl

/-! ## C5: no log for the room -/

/-- C5: for every chat:send with a text that is not blank whose lookup goes through and
finds no log for the roomId, the server state is unchanged (no log is created, nothing is
persisted), nothing is broadcast to any room, no AI provider is called, and the only
effect is one error event 'Room not found', which the originating socket and no other
receives. -/
theorem chatSend_room_not_found
    (env : Env) (s : Server) (sid : String) (p : SendPayload) (t : String)
    (htext : p.text = some t) (hnb : ¬ WhitespaceOnly t)
    (hup : env.storeUp 0 = true) (hnone : findOne s.store p.roomId = none) :
    (chatSend env s sid p).1 = s ∧
    (chatSend env s sid p).2 = [.emit (.socket sid) (.error "Room not found")] ∧
    (∀ r, roomBroadcasts r (chatSend env s sid p).2 = []) ∧
    aiCalls (chatSend env s sid p).2 = [] ∧
    ∀ k : Socket, received k (chatSend env s sid p).2 =
      if k.id = sid then [.error "Room not found"] else [] := by
  have hrej : textRejected (some t) = false := by
    rw [← Bool.not_eq_true, textRejected_some_iff]
    exact hnb
  have hres : chatSend env s sid p = (s, [.emit (.socket sid) (.error "Room not found")]) := by
    simp only [chatSend, htext, hrej, findOneE, hup, hnone, if_true, Bool.false_eq_true,
      if_false]
  rw [hres]
  refine ⟨rfl, rfl, fun r => rfl, rfl, fun k => ?_⟩
  by_cases hk : k.id = sid <;> simp [received, delivers, hk]

/-- C5 (witness): Ann says " hello " to room R2, which has no log. -/
theorem chatSend_room_not_found_witness :
    (chatSend (envOf 7 (some "Hi") none) serverR1 "s1"
        ⟨some "R2", some "u1", some "Ann", some " hello "⟩).1 = serverR1 ∧
    (chatSend (envOf 7 (some "Hi") none) serverR1 "s1"
        ⟨some "R2", some "u1", some "Ann", some " hello "⟩).2
      = [.emit (.socket "s1") (.error "Room not found")] ∧
    (∀ r, roomBroadcasts r (chatSend (envOf 7 (some "Hi") none) serverR1 "s1"
        ⟨some "R2", some "u1", some "Ann", some " hello "⟩).2 = []) ∧
    aiCalls (chatSend (envOf 7 (some "Hi") none) serverR1 "s1"
        ⟨some "R2", some "u1", some "Ann", some " hello "⟩).2 = [] ∧
    ∀ k : Socket, received k (chatSend (envOf 7 (some "Hi") none) serverR1 "s1"
        ⟨some "R2", some "u1", some "Ann", some " hello "⟩).2 =
      if k.id = "s1" then [.error "Room not found"] else [] :=
  chatSend_room_not_found (envOf 7 (some "Hi") none) serverR1 "s1"
    ⟨some "R2", some "u1", some "Ann", some " hello "⟩ " hello " rfl
    not_whitespaceOnly_hello rfl (by decide)

/-! ## C6: the log only grows, in send order -/

theorem extends_refl (a : Store) : Extends a a :=
  fun _ c h => ⟨c, h, List.prefix_refl _⟩

theorem extends_trans {a b c : Store} (h1 : Extends a b) (h2 : Extends b c) : Extends a c := by
  intro r d hd
  obtain ⟨d1, hd1, hp1⟩ := h1 r d hd
  obtain ⟨d2, hd2, hp2⟩ := h2 r d1 hd1
  exact ⟨d2, hd2, hp1.trans hp2⟩

theorem extends_replaceFirst (doc chat : StudyRoomChat) (store : Store)
    (h : findOne store doc.roomId = some chat) (hp : chat.messages <+: doc.messages) :
    Extends store (replaceFirst doc store) := by
  intro r c hc
  by_cases hr : r = doc.roomId
  · subst hr
    rw [h] at hc
    cases hc
    exact ⟨doc, findOne_replaceFirst_same doc chat store h, hp⟩
  · exact ⟨c, by rw [findOne_replaceFirst_other doc store r hr]; exact hc, List.prefix_refl _⟩

theorem extends_aiStep (env : Env) (store : Store) (chat c : StudyRoomChat)
    (r : Option String) (h : findOne store chat.roomId = some c)
    (hp : c.messages <+: chat.messages) :
    Extends store (aiStep env store chat r).1 := by
  rcases aiStep_cases env store chat r with hai | ⟨a, _, _, hai⟩
  · rw [hai]
    exact extends_refl store
  · rw [hai]
    apply extends_replaceFirst _ c store
    · exact h
    · exact hp.trans (List.prefix_append _ _)

theorem extends_chatSend (env : Env) (s : Server) (sid : String) (p : SendPayload) :
    Extends s.store (chatSend env s sid p).1.store := by
  cases ht : p.text with
  | none =>
    have hres : (chatSend env s sid p).1 = s := by simp only [chatSend, ht]
    rw [hres]
    exact extends_refl _
  | some t =>
    cases hrej : textRejected (some t) with
    | true =>
      have hres : (chatSend env s sid p).1 = s := by simp only [chatSend, ht, hrej, if_true]
      rw [hres]
      exact extends_refl _
    | false =>
      cases hup : env.storeUp 0 with
      | false =>
        have hres : (chatSend env s sid p).1 = s := by
          simp only [chatSend, ht, hrej, findOneE, hup, if_false, Bool.false_eq_true]
        rw [hres]
        exact extends_refl _
      | true =>
        cases hf : findOne s.store p.roomId with
        | none =>
          have hres : (chatSend env s sid p).1 = s := by
            simp only [chatSend, ht, hrej, findOneE, hup, hf, if_true, if_false,
              Bool.false_eq_true]
          rw [hres]
          exact extends_refl _
        | some chat =>
          cases hs : (docValid (chat.push (userMessage env p t)) && env.storeUp 1) with
          | false =>
            have hres : (chatSend env s sid p).1 = s := by
              simp only [chatSend, ht, hrej, findOneE, hup, hf, saveE, hs, if_true, if_false,
                Bool.false_eq_true]
            rw [hres]
            exact extends_refl _
          | true =>
            have hres : (chatSend env s sid p).1.store =
                (aiStep env (replaceFirst ((chat.push (userMessage env p t)).touch env.now)
                  s.store) (chat.push (userMessage env p t)) p.roomId).1 := by
              simp only [chatSend, ht, hrej, findOneE, hup, hf, saveE, hs, if_true, if_false,
                Bool.false_eq_true]
            rw [hres]
            have hr : chat.roomId = p.roomId := findOne_roomId hf
            have h1 : findOne s.store ((chat.push (userMessage env p t)).touch env.now).roomId
                = some chat := by
              rw [touch_roomId, push_roomId, hr]
              exact hf
            have e1 := extends_replaceFirst _ chat s.store h1
              (by rw [touch_messages, push_messages]; exact List.prefix_append _ _)
            have h2 := findOne_replaceFirst_same _ chat s.store h1
            rw [touch_roomId] at h2
            exact extends_trans e1 (extends_aiStep env _ (chat.push (userMessage env p t)) _
              p.roomId h2 (by rw [touch_messages]))

theorem userMessages_append (l1 l2 : List Message) :
    userMessages (l1 ++ l2) = userMessages l1 ++ userMessages l2 := by
  simp [userMessages]

/-- The document of the room after one accepted send. -/
theorem chatSend_accepted_doc {env : Env} {s : Server} {p : SendPayload} {t : String}
    {chat : StudyRoomChat} (sid : String) (h : Accepted env s p t chat) :
    ∃ chat', findOne (chatSend env s sid p).1.store p.roomId = some chat' ∧
      docValid chat' = true ∧
      userMessages chat'.messages = userMessages chat.messages ++ [userMessage env p t] := by
  have hfind := findOne_storeAfterUser h
  have hrid := withUserMessage_roomId h
  have hv := docValid_withUserMessage h
  have hum : userMessages (withUserMessage env p t chat).messages
      = userMessages chat.messages ++ [userMessage env p t] := by
    simp [withUserMessage, userMessages, userMessage]
  rw [chatSend_accepted sid h]
  rcases aiStep_cases env (storeAfterUser env s p t chat) (withUserMessage env p t chat)
      p.roomId with hai | ⟨a, _, ha, hai⟩
  · rw [hai]
    exact ⟨_, hfind, hv, hum⟩
  · rw [hai]
    have h1 : findOne (storeAfterUser env s p t chat)
        (((withUserMessage env p t chat).push (assistantMessage env a)).touch env.now).roomId
        = some ((withUserMessage env p t chat).touch env.now) := by
      rw [touch_roomId, push_roomId, hrid]
      exact hfind
    have h2 := findOne_replaceFirst_same _ _ _ h1
    rw [touch_roomId, push_roomId, hrid] at h2
    refine ⟨_, h2, ?_, ?_⟩
    · have hm : messageValid (assistantMessage env a) = true := by
        simp [messageValid, assistantMessage, ha]
      exact docValid_push hv hm
    · rw [touch_messages, push_messages, userMessages_append, hum]
      simp [userMessages, assistantMessage]

theorem run_sends_log (r : Option String) (sends : List (Env × String × SendPayload)) :
    ∀ (s : Server) (chat : StudyRoomChat), findOne s.store r = some chat →
      docValid chat = true → (∀ x ∈ sends, Successful r x) →
      ∃ chat', findOne (run s (sendInputs sends)).store r = some chat' ∧
        docValid chat' = true ∧
        userMessages chat'.messages = userMessages chat.messages ++ sends.filterMap sentMessage := by
  induction sends with
  | nil =>
    intro s chat hf hv _
    exact ⟨chat, hf, hv, by simp⟩
  | cons x rest ih =>
    intro s chat hf hv hall
    obtain ⟨hroom, hnb, hid, hname, hup0, hup1⟩ := hall x (List.mem_cons_self _ _)
    obtain ⟨env, sid, p⟩ := x
    simp only at hroom hnb hid hname hup0 hup1
    have ht : ∃ t, p.text = some t ∧ ¬ WhitespaceOnly t := by
      unfold Blank at hnb
      push_neg at hnb
      exact hnb
    obtain ⟨t, ht, hws⟩ := ht
    have hacc : Accepted env s p t chat :=
      ⟨ht, hws, hup0, by rw [hroom]; exact hf, hv, hid, hname, hup1⟩
    obtain ⟨chat1, hf1, hv1, hu1⟩ := chatSend_accepted_doc sid hacc
    rw [hroom] at hf1
    obtain ⟨chat2, hf2, hv2, hu2⟩ := ih (chatSend env s sid p).1 chat1 hf1 hv1
      (fun y hy => hall y (List.mem_cons_of_mem _ hy))
    refine ⟨chat2, ?_, hv2, ?_⟩
    · simpa [sendInputs, run, step] using hf2
    · rw [hu2, hu1]
      simp [sentMessage, ht]

theorem length_filterMap_sentMessage (r : Option String)
    (sends : List (Env × String × SendPayload)) (h : ∀ x ∈ sends, Successful r x) :
    (sends.filterMap sentMessage).length = sends.length := by
  induction sends with
  | nil => rfl
  | cons x rest ih =>
    have hx := (h x (List.mem_cons_self _ _)).2.1
    unfold Blank at hx
    push_neg at hx
    obtain ⟨t, ht, _⟩ := hx
    have hs : sentMessage x = some (userMessage x.1 x.2.2 t) := by simp [sentMessage, ht]
    rw [List.filterMap_cons_some hs, List.length_cons, List.length_cons,
      ih (fun y hy => h y (List.mem_cons_of_mem _ hy))]

theorem successful_twoSends : ∀ x ∈ twoSends, Successful (some "R1") x := by
  intro x hx
  simp only [twoSends, List.mem_cons, List.mem_singleton, List.not_mem_nil, or_false] at hx
  rcases hx with rfl | rfl
  · exact ⟨rfl, fun hb => absurd ((textRejected_iff_blank _).mpr hb) (by decide),
      by decide, by decide, rfl, rfl⟩
  · exact ⟨rfl, fun hb => absurd ((textRejected_iff_blank _).mpr hb) (by decide),
      by decide, by decide, rfl, rfl⟩

/-- C6: every chat:send, whatever its outcome and whatever the providers answer, leaves
every log of the store in place as a prefix of the log afterwards; and after a sequence of
successful sends to a room whose log was empty, handled one after another, the history
route returns a log whose user messages are exactly the messages of those sends, one for
each, in the order they were sent. -/
theorem sends_extend_log_in_send_order
    (s : Server) (rid : String) (chat0 : StudyRoomChat)
    (sends : List (Env × String × SendPayload)) (envH : Env)
    (hfound : findOne s.store (some rid) = some chat0) (hempty : chat0.messages = [])
    (hvalid : docValid chat0 = true)
    (hsends : ∀ x ∈ sends, Successful (some rid) x)
    (hup : envH.storeUp 0 = true) :
    (∀ (env : Env) (s' : Server) (sid : String) (p : SendPayload),
      Extends s'.store (chatSend env s' sid p).1.store) ∧
    ∃ msgs, getHistory envH (run s (sendInputs sends)).store rid
        = ((run s (sendInputs sends)).store, .ok rid msgs msgs.length) ∧
      userMessages msgs = sends.filterMap sentMessage ∧
      (sends.filterMap sentMessage).length = sends.length := by
  refine ⟨fun env s' sid p => extends_chatSend env s' sid p, ?_⟩
  obtain ⟨chat', hf, _, hu⟩ := run_sends_log (some rid) sends s chat0 hfound hvalid hsends
  refine ⟨chat'.messages, ?_, ?_, length_filterMap_sentMessage _ sends hsends⟩
  · simp only [getHistory, findOneE, hup, hf, if_true]
  · rw [hu, hempty]
    rfl

/-- C6 (witness): Ann and then Bob send to room R1, whose log was empty. -/
theorem sends_extend_log_in_send_order_witness :
    (∀ (env : Env) (s' : Server) (sid : String) (p : SendPayload),
      Extends s'.store (chatSend env s' sid p).1.store) ∧
    ∃ msgs, getHistory (envOf 10 none none) (run serverR1 (sendInputs twoSends)).store "R1"
        = ((run serverR1 (sendInputs twoSends)).store, .ok "R1" msgs msgs.length) ∧
      userMessages msgs = twoSends.filterMap sentMessage ∧
      (twoSends.filterMap sentMessage).length = twoSends.length :=
  sends_extend_log_in_send_order serverR1 "R1" ⟨some "R1", [], 0, 0⟩ twoSends
    (envOf 10 none none) (by decide) rfl (by decide) successful_twoSends rfl

/-! ## C7: the prompt -/

theorem sliceLast_eq_reverse_take {α : Type} (n : Nat) (l : List α) :
    sliceLast n l = (l.reverse.take n).reverse := by
  rw [List.take_reverse, List.reverse_reverse]
  rfl

theorem speaker_eq_specSpeaker (m : Message) : speaker m = specSpeaker m := by
  unfold speaker specSpeaker
  by_cases h : m.sender = "user"
  · cases hn : m.userName <;> simp [h, interpolate]
  · have hb : (m.sender == "user") = false := by simpa using h
    simp [h, hb]

theorem buildContext_eq_spec (log : List Message) :
    buildContext log = "\n".intercalate (specContextLines log) := by
  unfold buildContext specContextLines
  rw [sliceLast_eq_reverse_take]
  congr 1
  apply List.map_congr_left
  intro m _
  simp [renderLine, speaker_eq_specSpeaker]

theorem specContextLines_getLast (log : List Message) (m : Message) :
    (specContextLines (log ++ [m])).getLast? = some (specSpeaker m ++ ": " ++ m.text) := by
  simp [specContextLines, List.getLast?_map]

theorem aiCalls_aiStep (env : Env) (store : Store) (chat : StudyRoomChat) (r : Option String) :
    aiCalls (aiStep env store chat r).2
      = (askProviders env (aiPrompt (buildContext chat.messages))).1 := by
  rcases aiStep_cases env store chat r with h | ⟨a, _, _, h⟩ <;>
    rcases askProviders_calls env (aiPrompt (buildContext chat.messages)) with hc | hc <;>
    simp [h, hc, aiCalls]

theorem askProviders_calls_eq (env : Env) (prompt : String) :
    (askProviders env prompt).1 = Effect.primaryCall prompt aiParams ::
      (if env.generateAIResponse prompt aiParams = none
        then [Effect.fallbackCall groqModel prompt aiParams] else []) := by
  unfold askProviders
  cases env.generateAIResponse prompt aiParams <;> simp

theorem specContextLines_eq (log : List Message) :
    specContextLines log = ((log.reverse.take 10).reverse).map
      (fun m => (if m.sender = "user" then m.userName.getD "undefined" else "Assistant")
        ++ ": " ++ m.text) := by
  unfold specContextLines
  apply List.map_congr_left
  intro m _
  congr 2
  unfold specSpeaker
  by_cases h : m.sender = "user"
  · cases hn : m.userName <;> simp [h]
  · have hb : (m.sender == "user") = false := by simpa using h
    simp [h, hb]

theorem accepted_eleven (a b : Option String) :
    Accepted (envOf 7 a b) serverEleven paddedHello " hello "
      ⟨some "R1", logEleven, 0, 6⟩ :=
  ⟨rfl, by rw [← textRejected_some_iff]; decide, rfl, by decide, by decide, by decide,
    by decide, rfl⟩

set_option maxRecDepth 100000 in
/-- C7 (counterexample): for Ann's send of " hello " to the empty log of room R1 the
context is the one line "Ann: hello", and the prompt handed to the provider is not the
fixed preamble followed by that context: a fixed closing instruction follows the
context. -/
theorem prompt_has_closing_instruction :
    aiCalls (chatSend (envOf 7 (some "Hi Ann") none) serverR1 "s1" paddedHello).2
      = [.primaryCall "You are a helpful study assistant in a collaborative study room. Multiple students are studying together. Previous conversation:\nAnn: hello\n\nProvide a helpful, concise response to help with their studies. Keep responses friendly and educational." ⟨⟨7, 1⟩, 500⟩] ∧
    buildContext ([] ++ [userMessage (envOf 7 (some "Hi Ann") none) paddedHello " hello "])
      = "Ann: hello" ∧
    "You are a helpful study assistant in a collaborative study room. Multiple students are studying together. Previous conversation:\nAnn: hello\n\nProvide a helpful, concise response to help with their studies. Keep responses friendly and educational." ≠ "You are a helpful study assistant in a collaborative study room. Multiple students are studying together. Previous conversation:\n" ++ "Ann: hello" := by
  refine ⟨?_, ?_, ?_⟩ <;> decide

/-- C7 (amended): for every accepted chat:send the prompt handed to the providers is the
fixed preamble, then the context, then a fixed closing instruction, where the context is
made of the last 10 messages (all if fewer) of the log with the user message appended, in
log order, each rendered as speaker, ': ' and text (speaker: the userName for sender
'user', 'Assistant' otherwise), joined by newlines; the line of the message just sent is
the last one; the primary provider is called once with that prompt, the fallback is
called, once and with the same prompt, exactly when the primary fails, and both get
temperature 0.7 and 500 max tokens. -/
theorem chatSend_prompt_from_last_ten
    (env : Env) (s : Server) (sid : String) (p : SendPayload) (t : String)
    (chat : StudyRoomChat) (h : Accepted env s p t chat) :
    ∃ (lines : List String) (prompt name : String),
      lines = (((chat.messages ++ [userMessage env p t]).reverse.take 10).reverse).map
        (fun m => (if m.sender = "user" then m.userName.getD "undefined" else "Assistant")
          ++ ": " ++ m.text) ∧
      prompt = "You are a helpful study assistant in a collaborative study room. Multiple students are studying together. Previous conversation:\n" ++ "\n".intercalate lines ++ "\n\nProvide a helpful, concise response to help with their studies. Keep responses friendly and educational." ∧
      aiCalls (chatSend env s sid p).2
        = Effect.primaryCall prompt ⟨⟨7, 1⟩, 500⟩ ::
          (if env.generateAIResponse prompt ⟨⟨7, 1⟩, 500⟩ = none
            then [Effect.fallbackCall "llama-3.1-70b-versatile" prompt ⟨⟨7, 1⟩, 500⟩]
            else []) ∧
      p.userName = some name ∧
      lines.getLast? = some (name ++ ": " ++ jsTrim t) ∧
      lines.length = min 10 (chat.messages.length + 1) := by
  have hname := h.userName
  cases hn : p.userName with
  | none => simp [required, truthy, hn] at hname
  | some name =>
    refine ⟨specContextLines (chat.messages ++ [userMessage env p t]),
      aiPrompt (buildContext (chat.messages ++ [userMessage env p t])), name,
      specContextLines_eq _, ?_, ?_, rfl, ?_, ?_⟩
    · rw [buildContext_eq_spec]
      rfl
    · rw [chatSend_accepted sid h]
      have := aiCalls_aiStep env (storeAfterUser env s p t chat)
        (withUserMessage env p t chat) p.roomId
      have hcons : ∀ (e : Event) (l : List Effect),
          aiCalls (Effect.emit (.room p.roomId) e :: l) = aiCalls l := fun _ _ => rfl
      simp only [hcons]
      rw [this, askProviders_calls_eq, withUserMessage, push_messages]
      rfl
    · rw [specContextLines_getLast]
      simp [specSpeaker, userMessage, hn]
    · simp only [specContextLines, List.length_map, List.length_reverse, List.length_take,
        List.length_append, List.length_singleton]

set_option maxRecDepth 100000 in
/-- C7 (witness): Ann sends " hello " to the log of eleven messages and the primary
provider fails: both providers get the same prompt, whose context is the last ten of the
twelve messages, one per line, the assistant's under the label Assistant and Ann's new
message last. -/
theorem chatSend_prompt_from_last_ten_witness :
    aiCalls (chatSend (envOf 7 none (some "Hi Ann")) serverEleven "s1" paddedHello).2
      = [.primaryCall
          "You are a helpful study assistant in a collaborative study room. Multiple students are studying together. Previous conversation:\nBob: q2\nAssistant: a2\nAnn: q3\nAssistant: a3\nBob: q4\nAssistant: a4\nAnn: q5\nAssistant: a5\nBob: q6\nAnn: hello\n\nProvide a helpful, concise response to help with their studies. Keep responses friendly and educational."
          ⟨⟨7, 1⟩, 500⟩,
         .fallbackCall "llama-3.1-70b-versatile"
          "You are a helpful study assistant in a collaborative study room. Multiple students are studying together. Previous conversation:\nBob: q2\nAssistant: a2\nAnn: q3\nAssistant: a3\nBob: q4\nAssistant: a4\nAnn: q5\nAssistant: a5\nBob: q6\nAnn: hello\n\nProvide a helpful, concise response to help with their studies. Keep responses friendly and educational."
          ⟨⟨7, 1⟩, 500⟩] := by
  obtain ⟨lines, prompt, name, hl, hp, hcalls, _, _, _⟩ :=
    chatSend_prompt_from_last_ten (envOf 7 none (some "Hi Ann")) serverEleven "s1" paddedHello
      " hello " ⟨some "R1", logEleven, 0, 6⟩ (accepted_eleven none (some "Hi Ann"))
  rw [hcalls, hp, hl]
  decide

/-! ## C8: joining a room -/

theorem roomJoin_sockets (env : Env) (s : Server) (sid : String) (p : RoomPayload) :
    (roomJoin env s sid p).1.sockets = updateSocket sid (rebind p) s.sockets := by
  unfold roomJoin
  simp only
  split
  · rfl
  · rfl
  · split <;> rfl

theorem roomJoin_found {env : Env} {s : Server} {p : RoomPayload} {chat : StudyRoomChat}
    (sid : String) (hup : env.storeUp 0 = true) (hf : findOne s.store p.roomId = some chat) :
    (roomJoin env s sid p).1.store = s.store ∧
    (roomJoin env s sid p).2 =
      [.emit (.socket sid) (.chatHistory chat.messages),
       .emit (.roomExcept p.roomId sid) (.roomUserJoined p.userId p.userName env.now)] := by
  simp only [roomJoin, findOneE, hup, hf, if_true, and_self]

theorem roomJoin_lookupFails {env : Env} (s : Server) (sid : String) (p : RoomPayload)
    (hup : env.storeUp 0 = false) :
    (roomJoin env s sid p).1.store = s.store ∧
    (roomJoin env s sid p).2 = [.emit (.socket sid) (.error "Failed to join room")] := by
  simp only [roomJoin, findOneE, hup, if_false, Bool.false_eq_true, and_self]

theorem roomJoin_created {env : Env} {s : Server} {p : RoomPayload}
    (sid : String) (hup0 : env.storeUp 0 = true) (hup1 : env.storeUp 1 = true)
    (hreq : required p.roomId = true) (hf : findOne s.store p.roomId = none) :
    (roomJoin env s sid p).1.store = s.store ++ [⟨p.roomId, [], env.now, env.now⟩] ∧
    (roomJoin env s sid p).2 =
      [.emit (.socket sid) (.chatHistory []),
       .emit (.roomExcept p.roomId sid) (.roomUserJoined p.userId p.userName env.now)] := by
  have hv : docValid ⟨p.roomId, [], env.now, env.now⟩ = true := by simp [docValid, hreq]
  simp only [roomJoin, findOneE, hup0, hf, saveNewE, hv, hup1, if_true, Bool.and_self, and_self]

theorem roomJoin_notCreated {env : Env} {s : Server} {p : RoomPayload}
    (sid : String) (hup0 : env.storeUp 0 = true)
    (hreq : required p.roomId = false) (hf : findOne s.store p.roomId = none) :
    (roomJoin env s sid p).1.store = s.store ∧
    (roomJoin env s sid p).2 = [.emit (.socket sid) (.error "Failed to join room")] := by
  have hv : docValid ⟨p.roomId, [], env.now, env.now⟩ = false := by simp [docValid, hreq]
  simp only [roomJoin, findOneE, hup0, hf, saveNewE, hv, if_true, if_false, Bool.false_and,
    Bool.false_eq_true, and_self]

theorem filter_roomId_of_findOne_none {store : Store} {r : Option String}
    (h : findOne store r = none) : store.filter (fun d => d.roomId == r) = [] := by
  rw [List.filter_eq_nil_iff]
  intro d hd
  exact List.find?_eq_none.mp h d hd

theorem received_join (k : Socket) (sid : String) (r : Option String) (e1 e2 : Event) :
    received k [.emit (.socket sid) e1, .emit (.roomExcept r sid) e2] =
      if k.id = sid then [e1] else if r ∈ k.rooms then [e2] else [] := by
  by_cases hk : k.id = sid
  · simp [received, delivers, hk]
  · by_cases hr : r ∈ k.rooms <;> simp [received, delivers, hk, hr]

/-- C8: for every room:join with a non-empty roomId whose store calls go through: when
the room has no log, the store afterwards is the store before plus one empty log for the
room, the only document of that room; when it has a log, the store is unchanged; any
further join of that room leaves the store as it is; the handler emits chat:history with
the full log of the room to the joining socket and room:userJoined to the room except the
joiner, so the joiner, and no other socket, receives the history, and the other sockets in
the room, and not the joiner, receive room:userJoined. -/
theorem roomJoin_creates_log_once_and_sends_history
    (env : Env) (s : Server) (sid : String) (p : RoomPayload) (r : String)
    (hroom : p.roomId = some r) (hne : r ≠ "")
    (hup0 : env.storeUp 0 = true) (hup1 : env.storeUp 1 = true) :
    (roomJoin env s sid p).1.store =
      (match findOne s.store (some r) with
       | some _ => s.store
       | none => s.store ++ [⟨some r, [], env.now, env.now⟩]) ∧
    (findOne s.store (some r) = none →
      ((roomJoin env s sid p).1.store.filter (fun d => d.roomId == some r)).length = 1) ∧
    (∀ (env2 : Env) (sid2 : String) (p2 : RoomPayload), p2.roomId = some r →
      (roomJoin env2 (roomJoin env s sid p).1 sid2 p2).1.store = (roomJoin env s sid p).1.store) ∧
    (roomJoin env s sid p).2 =
      [.emit (.socket sid) (.chatHistory (logOf (roomJoin env s sid p).1.store (some r))),
       .emit (.roomExcept (some r) sid) (.roomUserJoined p.userId p.userName env.now)] ∧
    ∀ k : Socket, received k (roomJoin env s sid p).2 =
      if k.id = sid then [.chatHistory (logOf (roomJoin env s sid p).1.store (some r))]
      else if some r ∈ k.rooms then [.roomUserJoined p.userId p.userName env.now]
      else [] := by
  have hreq : required p.roomId = true := by
    rw [hroom]
    exact (strTruthy_iff r).mpr hne
  have hlog : ∃ c, findOne (roomJoin env s sid p).1.store (some r) = some c ∧
      (roomJoin env s sid p).2 =
        [.emit (.socket sid) (.chatHistory c.messages),
         .emit (.roomExcept (some r) sid) (.roomUserJoined p.userId p.userName env.now)] ∧
      (roomJoin env s sid p).1.store =
        (match findOne s.store (some r) with
         | some _ => s.store
         | none => s.store ++ [⟨some r, [], env.now, env.now⟩]) := by
    cases hf : findOne s.store (some r) with
    | some chat =>
      have := roomJoin_found sid hup0 (by rw [hroom]; exact hf)
      rw [hroom] at this
      exact ⟨chat, by rw [this.1]; exact hf, this.2, this.1⟩
    | none =>
      have := roomJoin_created sid hup0 hup1 hreq (by rw [hroom]; exact hf)
      rw [hroom] at this
      refine ⟨⟨some r, [], env.now, env.now⟩, ?_, this.2, this.1⟩
      rw [this.1, findOne_append_new _ _ _ hf]
      simp
  obtain ⟨c, hc, heff, hstore⟩ := hlog
  have hlogOf : logOf (roomJoin env s sid p).1.store (some r) = c.messages := by
    simp [logOf, hc]
  refine ⟨hstore, ?_, ?_, ?_, ?_⟩
  · intro hf
    rw [hstore, hf]
    simp only [List.filter_append, filter_roomId_of_findOne_none hf, List.nil_append]
    simp
  · intro env2 sid2 p2 hp2
    cases h2 : env2.storeUp 0 with
    | false => exact (roomJoin_lookupFails _ sid2 p2 h2).1
    | true => exact (roomJoin_found sid2 h2 (by rw [hp2]; exact hc)).1
  · rw [hlogOf]
    exact heff
  · intro k
    rw [hlogOf, heff]
    exact received_join k sid (some r) _ _

/-- C8 (witness): socket s1 joins room R2, which has no log yet. -/
theorem roomJoin_creates_log_once_and_sends_history_witness :
    (roomJoin envUp annInR1 "s1" annJoinsR2).1.store =
      (match findOne annInR1.store (some "R2") with
       | some _ => annInR1.store
       | none => annInR1.store ++ [⟨some "R2", [], envUp.now, envUp.now⟩]) ∧
    (findOne annInR1.store (some "R2") = none →
      ((roomJoin envUp annInR1 "s1" annJoinsR2).1.store.filter
        (fun d => d.roomId == some "R2")).length = 1) ∧
    (∀ (env2 : Env) (sid2 : String) (p2 : RoomPayload), p2.roomId = some "R2" →
      (roomJoin env2 (roomJoin envUp annInR1 "s1" annJoinsR2).1 sid2 p2).1.store
        = (roomJoin envUp annInR1 "s1" annJoinsR2).1.store) ∧
    (roomJoin envUp annInR1 "s1" annJoinsR2).2 =
      [.emit (.socket "s1")
        (.chatHistory (logOf (roomJoin envUp annInR1 "s1" annJoinsR2).1.store (some "R2"))),
       .emit (.roomExcept (some "R2") "s1")
        (.roomUserJoined annJoinsR2.userId annJoinsR2.userName envUp.now)] ∧
    ∀ k : Socket, received k (roomJoin envUp annInR1 "s1" annJoinsR2).2 =
      if k.id = "s1" then
        [.chatHistory (logOf (roomJoin envUp annInR1 "s1" annJoinsR2).1.store (some "R2"))]
      else if some "R2" ∈ k.rooms then
        [.roomUserJoined annJoinsR2.userId annJoinsR2.userName envUp.now]
      else [] :=
  roomJoin_creates_log_once_and_sends_history envUp annInR1 "s1" annJoinsR2 "R2" rfl
    (by decide) rfl rfl

/-! ## C9: joining without a roomId -/

theorem findOne_not_required {store : Store} {r : Option String}
    (hv : storeValid store = true) (hr : required r = false) : findOne store r = none := by
  unfold findOne
  rw [List.find?_eq_none]
  intro d hd hdr
  have hdv : docValid d = true := by
    unfold storeValid at hv
    exact List.all_eq_true.mp hv d hd
  have hreq : required d.roomId = true := by
    unfold docValid at hdv
    rw [Bool.and_eq_true] at hdv
    exact hdv.1
  have : d.roomId = r := by simpa using hdr
  rw [this, hr] at hreq
  exact absurd hreq (by decide)

theorem received_single (k : Socket) (sid : String) (e : Event) :
    received k [.emit (.socket sid) e] = if k.id = sid then [e] else [] := by
  by_cases hk : k.id = sid <;> simp [received, delivers, hk]

/-- C9 (counterexample): socket s1 is bound to room R1 as Ann; a room:join without roomId
is answered with the error event, but the socket is rebound: its roomId, userId and
userName are those of the rejected payload and the missing roomId is among its rooms. -/
theorem roomJoin_without_roomId_rebinds_socket :
    annInR1.sockets = [⟨"s1", [some "s1", some "R1"], some "R1", some "u1", some "Ann"⟩] ∧
    zedJoinsNothing.roomId = none ∧
    roomJoin envUp annInR1 "s1" zedJoinsNothing =
      (⟨[⟨"s1", [some "s1", some "R1", none], none, some "u9", some "Zed"⟩], annInR1.store⟩,
       [.emit (.socket "s1") (.error "Failed to join room")]) ∧
    (roomJoin envUp annInR1 "s1" zedJoinsNothing).1.sockets ≠ annInR1.sockets := by
  refine ⟨?_, ?_, ?_, ?_⟩ <;> decide

/-- C9 (amended): for every room:join whose roomId is missing or empty, on a store whose
documents pass validation, the only effect is one error event 'Failed to join room', which
the originating socket and no other receives (so no other socket is notified), the store
is the same as before and every other socket is the same as before; the originating
socket itself is rebound by the handler before the lookup. -/
theorem roomJoin_without_roomId_rejected
    (env : Env) (s : Server) (sid : String) (p : RoomPayload)
    (hroom : p.roomId = none ∨ p.roomId = some "")
    (hvalid : storeValid s.store = true) :
    (roomJoin env s sid p).2 = [.emit (.socket sid) (.error "Failed to join room")] ∧
    (∀ k : Socket, received k (roomJoin env s sid p).2 =
      if k.id = sid then [.error "Failed to join room"] else []) ∧
    (roomJoin env s sid p).1.store = s.store ∧
    (roomJoin env s sid p).1.sockets =
      s.sockets.map (fun k => if k.id = sid then rebind p k else k) := by
  have hreq : required p.roomId = false := by
    rcases hroom with h | h <;> rw [h] <;> decide
  have hres : (roomJoin env s sid p).1.store = s.store ∧
      (roomJoin env s sid p).2 = [.emit (.socket sid) (.error "Failed to join room")] := by
    cases hup : env.storeUp 0 with
    | false => exact roomJoin_lookupFails s sid p hup
    | true => exact roomJoin_notCreated sid hup hreq (findOne_not_required hvalid hreq)
  refine ⟨hres.2, ?_, hres.1, roomJoin_sockets env s sid p⟩
  intro k
  rw [hres.2]
  exact received_single k sid _

/-- C9 (witness): the room:join without roomId on the server where s1 is in room R1. -/
theorem roomJoin_without_roomId_rejected_witness :
    (roomJoin envUp annInR1 "s1" zedJoinsNothing).2
      = [.emit (.socket "s1") (.error "Failed to join room")] ∧
    (∀ k : Socket, received k (roomJoin envUp annInR1 "s1" zedJoinsNothing).2 =
      if k.id = "s1" then [.error "Failed to join room"] else []) ∧
    (roomJoin envUp annInR1 "s1" zedJoinsNothing).1.store = annInR1.store ∧
    (roomJoin envUp annInR1 "s1" zedJoinsNothing).1.sockets =
      annInR1.sockets.map (fun k => if k.id = "s1" then rebind zedJoinsNothing k else k) :=
  roomJoin_without_roomId_rejected envUp annInR1 "s1" zedJoinsNothing (Or.inl rfl) (by decide)

/-! ## C10: rooms of a socket -/

/-- C10 (counterexample): socket s1 joins room R1 and then room R2; it is then in both
rooms, and a chat:send and a chat:typing of another socket addressed to R1 still reach
it. -/
theorem join_second_room_keeps_first :
    annInR1ThenR2.sockets
      = [⟨"s1", [some "s1", some "R1", some "R2"], some "R2", some "u1", some "Ann"⟩] ∧
    received ⟨"s1", [some "s1", some "R1", some "R2"], some "R2", some "u1", some "Ann"⟩
        (chatSend (envOf 9 none none) annInR1ThenR2 "s2" bobBye).2
      = [.chatMessage ⟨"user", some "u2", some "Bob", "bye", 9⟩,
         .chatAiResponse ⟨"assistant", none, none, apologyText, 9⟩] ∧
    received ⟨"s1", [some "s1", some "R1", some "R2"], some "R2", some "u1", some "Ann"⟩
        (chatTyping annInR1ThenR2 "s2" ⟨some "R1", some "u2", some "Bob", true⟩).2
      = [.chatUserTyping (some "u2") (some "Bob") true] := by
  refine ⟨?_, ?_, ?_⟩ <;> decide

theorem mem_joinRoom (r x : Option String) (k : Socket) (h : x ∈ k.rooms) :
    x ∈ (joinRoom r k).rooms := by
  unfold joinRoom
  split
  · exact h
  · exact List.mem_append_left _ h

theorem self_mem_joinRoom (r : Option String) (k : Socket) : r ∈ (joinRoom r k).rooms := by
  unfold joinRoom
  split
  · assumption
  · simp

/-- C10 (amended): in every server state (so in every reachable one), when a socket that
is in room R1 handles a room:join, its roomId property becomes the roomId of that join
(last join wins for the binding) and it is in the joined room, but it is still in R1 too:
emits to room R1, from the server and from any other socket, are still delivered to it. -/
theorem roomJoin_keeps_earlier_rooms
    (env : Env) (s : Server) (sid : String) (p : RoomPayload) (k : Socket)
    (R1 : Option String)
    (hk : k ∈ s.sockets) (hid : k.id = sid) (hR1 : R1 ∈ k.rooms) :
    rebind p k ∈ (roomJoin env s sid p).1.sockets ∧
    (rebind p k).id = sid ∧
    (rebind p k).roomId = p.roomId ∧
    p.roomId ∈ (rebind p k).rooms ∧
    R1 ∈ (rebind p k).rooms ∧
    delivers (rebind p k) (.room R1) = true ∧
    ∀ sender, sender ≠ sid → delivers (rebind p k) (.roomExcept R1 sender) = true := by
  have hmem : R1 ∈ (rebind p k).rooms := mem_joinRoom p.roomId R1 k hR1
  have hidr : (rebind p k).id = sid := by
    unfold rebind joinRoom
    split <;> exact hid
  refine ⟨?_, hidr, rfl, self_mem_joinRoom p.roomId k, hmem, ?_, ?_⟩
  · rw [roomJoin_sockets]
    unfold updateSocket
    exact List.mem_map.mpr ⟨k, hk, by simp [hid]⟩
  · simp [delivers, hmem]
  · intro sender hs
    simp only [delivers, hmem, decide_True, Bool.true_and, hidr]
    simpa using fun h => hs h.symm

/-- C10 (witness): socket s1, in room R1, joins room R2. -/
theorem roomJoin_keeps_earlier_rooms_witness :
    rebind annJoinsR2 ⟨"s1", [some "s1", some "R1"], some "R1", some "u1", some "Ann"⟩
      ∈ (roomJoin envUp annInR1 "s1" annJoinsR2).1.sockets ∧
    (rebind annJoinsR2
      ⟨"s1", [some "s1", some "R1"], some "R1", some "u1", some "Ann"⟩).id = "s1" ∧
    (rebind annJoinsR2
      ⟨"s1", [some "s1", some "R1"], some "R1", some "u1", some "Ann"⟩).roomId
        = annJoinsR2.roomId ∧
    annJoinsR2.roomId ∈ (rebind annJoinsR2
      ⟨"s1", [some "s1", some "R1"], some "R1", some "u1", some "Ann"⟩).rooms ∧
    some "R1" ∈ (rebind annJoinsR2
      ⟨"s1", [some "s1", some "R1"], some "R1", some "u1", some "Ann"⟩).rooms ∧
    delivers (rebind annJoinsR2
      ⟨"s1", [some "s1", some "R1"], some "R1", some "u1", some "Ann"⟩)
        (.room (some "R1")) = true ∧
    ∀ sender, sender ≠ "s1" → delivers (rebind annJoinsR2
      ⟨"s1", [some "s1", some "R1"], some "R1", some "u1", some "Ann"⟩)
        (.roomExcept (some "R1") sender) = true :=
  roomJoin_keeps_earlier_rooms envUp annInR1 "s1" annJoinsR2
    ⟨"s1", [some "s1", some "R1"], some "R1", some "u1", some "Ann"⟩ (some "R1")
    (by decide) rfl (by decide)

/-! ## C11: leave and disconnect without a binding -/

theorem leaveRoom_not_member (r : Option String) (k : Socket) (h : r ∉ k.rooms) :
    leaveRoom r k = k := by
  have hf : k.rooms.filter (fun x => x != r) = k.rooms := by
    rw [List.filter_eq_self]
    intro x hx
    simp only [bne_iff_ne, ne_eq]
    intro hxr
    exact h (hxr ▸ hx)
  unfold leaveRoom
  rw [hf]

theorem updateSocket_id (sid : String) (f : Socket → Socket) (sockets : List Socket)
    (h : ∀ k ∈ sockets, k.id = sid → f k = k) : updateSocket sid f sockets = sockets := by
  unfold updateSocket
  conv_rhs => rw [← List.map_id sockets]
  apply List.map_congr_left
  intro k hk
  by_cases hid : k.id = sid
  · simp [hid, h k hk hid]
  · simp [hid]

/-- C11 (counterexample): socket s1 never joined a room, Bob's socket s2 is in room R1;
a room:leave of s1 for R1 is not a no-op, Bob receives room:userLeft; and when s1 joins
R1, leaves it and disconnects, two room:userLeft are emitted, not one. -/
theorem leave_without_binding_notifies_room :
    bobInR1.sockets = [⟨"s2", [some "s2", some "R1"], some "R1", some "u2", some "Bob"⟩,
      ⟨"s1", [some "s1"], none, none, none⟩] ∧
    (roomLeave envUp bobInR1 "s1" annJoinsR1).2
      = [.emit (.roomExcept (some "R1") "s1") (.roomUserLeft (some "u1") (some "Ann") 3)] ∧
    received ⟨"s2", [some "s2", some "R1"], some "R1", some "u2", some "Bob"⟩
        (roomLeave envUp bobInR1 "s1" annJoinsR1).2
      = [.roomUserLeft (some "u1") (some "Ann") 3] ∧
    userLeftEmits (runEffects bobInR1
        [(envUp, .join "s1" annJoinsR1), (envUp, .leave "s1" annJoinsR1),
         (envUp, .disconnect "s1")])
      = [.roomExcept (some "R1") "s1", .roomExcept (some "R1") "s1"] := by
  refine ⟨?_, ?_, ?_, ?_⟩ <;> decide

/-- C11 (amended): a disconnect of a socket that never joined (its roomId property is
unset) emits nothing, leaves the store as it is and only removes that socket. A room:leave
never touches the store or the roomId, userId and userName of any socket, and a room:leave
of a socket that is not in the room of the payload (it never joined, it is in another
room, or it left already) changes no state at all; yet every room:leave emits one
room:userLeft, built from the payload and addressed to the other sockets in the room of
the payload. -/
theorem leave_and_disconnect_without_binding
    (env : Env) (s : Server) (sid : String) (p : RoomPayload) :
    ((∀ k ∈ s.sockets, k.id = sid → k.roomId = none) →
      (disconnect env s sid).2 = [] ∧
      (disconnect env s sid).1.store = s.store ∧
      (disconnect env s sid).1.sockets = s.sockets.filter (fun k => k.id != sid)) ∧
    ((∀ k ∈ s.sockets, k.id = sid → p.roomId ∉ k.rooms) → (roomLeave env s sid p).1 = s) ∧
    (roomLeave env s sid p).1.store = s.store ∧
    (roomLeave env s sid p).1.sockets.map
        (fun k => (k.id, k.roomId, k.userId, k.userName))
      = s.sockets.map (fun k => (k.id, k.roomId, k.userId, k.userName)) ∧
    (roomLeave env s sid p).2
      = [.emit (.roomExcept p.roomId sid) (.roomUserLeft p.userId p.userName env.now)] ∧
    ∀ k : Socket, received k (roomLeave env s sid p).2 =
      if p.roomId ∈ k.rooms ∧ k.id ≠ sid then [.roomUserLeft p.userId p.userName env.now]
      else [] := by
  refine ⟨?_, ?_, rfl, ?_, rfl, ?_⟩
  · intro hnever
    refine ⟨?_, ?_, ?_⟩
    · unfold disconnect
      cases hf : s.sockets.find? (fun k => k.id == sid) with
      | none => rfl
      | some k =>
        have hk := List.mem_of_find?_eq_some hf
        have hid : k.id = sid := by simpa using List.find?_some hf
        simp [hnever k hk hid, truthy]
    · unfold disconnect
      cases hf : s.sockets.find? (fun k => k.id == sid) with
      | none => rfl
      | some k => simp only; split <;> rfl
    · unfold disconnect
      cases hf : s.sockets.find? (fun k => k.id == sid) with
      | none => rfl
      | some k => simp only; split <;> rfl
  · intro hout
    unfold roomLeave
    simp only
    rw [updateSocket_id sid _ s.sockets
      (fun k hk hid => leaveRoom_not_member p.roomId k (hout k hk hid))]
  · simp only [roomLeave, updateSocket, List.map_map]
    apply List.map_congr_left
    intro k _
    by_cases hid : k.id = sid <;> simp [hid, leaveRoom]
  · intro k
    by_cases hr : p.roomId ∈ k.rooms <;> by_cases hid : k.id = sid <;>
      simp [roomLeave, received, delivers, hr, hid]

/-- C11 (witness): socket s1, which never joined, disconnects; socket s1, which is in room
R1 only, sends room:leave for room R2: the server state is unchanged and one room:userLeft
is emitted to room R2. -/
theorem leave_and_disconnect_without_binding_witness :
    ((disconnect envUp bobInR1 "s1").2 = [] ∧
      (disconnect envUp bobInR1 "s1").1.store = bobInR1.store ∧
      (disconnect envUp bobInR1 "s1").1.sockets
        = bobInR1.sockets.filter (fun k => k.id != "s1")) ∧
    annInR1.sockets = [⟨"s1", [some "s1", some "R1"], some "R1", some "u1", some "Ann"⟩] ∧
    (roomLeave envUp annInR1 "s1" annJoinsR2).1 = annInR1 ∧
    (roomLeave envUp annInR1 "s1" annJoinsR2).2
      = [.emit (.roomExcept (some "R2") "s1") (.roomUserLeft (some "u1") (some "Ann") 3)] :=
  ⟨(leave_and_disconnect_without_binding envUp bobInR1 "s1" annJoinsR1).1 (by decide),
   by decide,
   (leave_and_disconnect_without_binding envUp annInR1 "s1" annJoinsR2).2.1 (by decide),
   (leave_and_disconnect_without_binding envUp annInR1 "s1" annJoinsR2).2.2.2.2.1⟩

/-! ## C12: statistics of a room -/

theorem get?_length_sub_one {α : Type} (l : List α) : l.get? (l.length - 1) = l.getLast? := by
  rw [List.getLast?_eq_getElem?, List.get?_eq_getElem?]

theorem length_eq_user_add_assistant (log : List Message)
    (h : log.all messageValid = true) :
    log.length = log.countP (fun m => m.sender == "user")
      + log.countP (fun m => m.sender == "assistant") := by
  induction log with
  | nil => rfl
  | cons m rest ih =>
    rw [List.all_cons, Bool.and_eq_true] at h
    have hrest := ih h.2
    have hm := h.1
    simp only [messageValid, Bool.and_eq_true, Bool.or_eq_true, beq_iff_eq] at hm
    rcases hm.1.1.1 with hu | ha
    · have hna : (m.sender == "assistant") = false := by rw [hu]; decide
      have hub : (m.sender == "user") = true := by rw [hu]; decide
      simp only [List.countP_cons, hub, hna, List.length_cons, hrest, if_true,
        Bool.false_eq_true, if_false]
      omega
    · have hnu : (m.sender == "user") = false := by rw [ha]; decide
      have hab : (m.sender == "assistant") = true := by rw [ha]; decide
      simp only [List.countP_cons, hab, hnu, List.length_cons, hrest, if_true,
        Bool.false_eq_true, if_false]
      omega

/-- C12: the stats route never changes the store; when the lookup finds the room's log it
answers with the number of messages, the number of messages of sender 'user', the number
of messages of sender 'assistant' and, as lastActivity, the timestamp of the last message,
or the creation time of the log when it is empty; for a log that passes schema validation
the total is the sum of the two counts; when the lookup finds no log it answers 0, 0, 0 and
null. -/
theorem getStats_derived_and_read_only
    (env : Env) (store : Store) (roomId : String) :
    (getStats env store roomId).1 = store ∧
    (env.storeUp 0 = true → ∀ chat, findOne store (some roomId) = some chat →
      (getStats env store roomId).2 = .ok roomId
        { totalMessages := chat.messages.length,
          userMessages := chat.messages.countP (fun m => m.sender == "user"),
          aiMessages := chat.messages.countP (fun m => m.sender == "assistant"),
          lastActivity := some ((chat.messages.getLast?.map (fun m => m.timestamp)).getD
            chat.createdAt) } ∧
      (docValid chat = true →
        chat.messages.length = chat.messages.countP (fun m => m.sender == "user")
          + chat.messages.countP (fun m => m.sender == "assistant"))) ∧
    (env.storeUp 0 = true → findOne store (some roomId) = none →
      (getStats env store roomId).2 = .ok roomId
        { totalMessages := 0, userMessages := 0, aiMessages := 0, lastActivity := none }) := by
  refine ⟨?_, ?_, ?_⟩
  · unfold getStats
    split <;> rfl
  · intro hup chat hf
    refine ⟨?_, ?_⟩
    · simp only [getStats, findOneE, hup, hf, if_true, get?_length_sub_one,
        List.countP_eq_length_filter]
      cases chat.messages.getLast? <;> rfl
    · intro hv
      unfold docValid at hv
      rw [Bool.and_eq_true] at hv
      exact length_eq_user_add_assistant chat.messages hv.2
  · intro hup hf
    simp only [getStats, findOneE, hup, hf, if_true]

/-- C12 (witness): the statistics of room R1 on the store with a log of three messages,
and of room R2, which has no log. -/
theorem getStats_derived_and_read_only_witness :
    (getStats envUp storeThree "R1").1 = storeThree ∧
    (getStats envUp storeThree "R1").2
      = .ok "R1" { totalMessages := 3, userMessages := 2, aiMessages := 1,
                   lastActivity := some 9 } ∧
    (getStats envUp storeThree "R2").2
      = .ok "R2" { totalMessages := 0, userMessages := 0, aiMessages := 0,
                   lastActivity := none } :=
  ⟨(getStats_derived_and_read_only envUp storeThree "R1").1,
   ((getStats_derived_and_read_only envUp storeThree "R1").2.1 rfl
      ⟨some "R1", [helloMessage, ⟨"assistant", none, none, "Hi Ann", 7⟩,
        ⟨"user", some "u2", some "Bob", "bye", 9⟩], 2, 9⟩ (by decide)).1,
   (getStats_derived_and_read_only envUp storeThree "R2").2.2 rfl (by decide)⟩

/-! ## C15: a send does not look at the sending socket -/

/-- A `chat:send` either answers the sender with one error event and changes nothing, or
writes a store and produces effects that are determined by the environment, the store and
the payload alone. -/
theorem chatSend_shape (env : Env) (store : Store) (p : SendPayload) :
    (∃ msg, ∀ (sockets : List Socket) (sid : String),
      chatSend env ⟨sockets, store⟩ sid p
        = (⟨sockets, store⟩, [.emit (.socket sid) (.error msg)])) ∨
    (∃ store' effs, ∀ (sockets : List Socket) (sid : String),
      chatSend env ⟨sockets, store⟩ sid p = (⟨sockets, store'⟩, effs)) := by
  cases ht : p.text with
  | none =>
    exact Or.inl ⟨"Message cannot be empty", fun sockets sid => by simp only [chatSend, ht]⟩
  | some t =>
    cases hrej : textRejected (some t) with
    | true =>
      exact Or.inl ⟨"Message cannot be empty", fun sockets sid => by
        simp only [chatSend, ht, hrej, if_true]⟩
    | false =>
      cases hup : env.storeUp 0 with
      | false =>
        exact Or.inl ⟨"Failed to send message", fun sockets sid => by
          simp only [chatSend, ht, hrej, findOneE, hup, if_false, Bool.false_eq_true]⟩
      | true =>
        cases hf : findOne store p.roomId with
        | none =>
          exact Or.inl ⟨"Room not found", fun sockets sid => by
            simp only [chatSend, ht, hrej, findOneE, hup, hf, if_true, if_false,
              Bool.false_eq_true]⟩
        | some chat =>
          cases hs : (docValid (chat.push (userMessage env p t)) && env.storeUp 1) with
          | false =>
            exact Or.inl ⟨"Failed to send message", fun sockets sid => by
              simp only [chatSend, ht, hrej, findOneE, hup, hf, saveE, hs, if_true, if_false,
                Bool.false_eq_true]⟩
          | true =>
            exact Or.inr
              ⟨(aiStep env (replaceFirst ((chat.push (userMessage env p t)).touch env.now)
                  store) (chat.push (userMessage env p t)) p.roomId).1,
               .emit (.room p.roomId) (.chatMessage (userMessage env p t)) ::
                (aiStep env (replaceFirst ((chat.push (userMessage env p t)).touch env.now)
                  store) (chat.push (userMessage env p t)) p.roomId).2,
               fun sockets sid => by
                simp only [chatSend, ht, hrej, findOneE, hup, hf, saveE, hs, if_true, if_false,
                  Bool.false_eq_true]⟩

/-- C15: for every payload, store and environment (clock, store availability, provider
answers), whatever sockets are connected, whatever rooms and properties they have, and
whichever socket sends, chat:send yields the same store (so the same log for every room)
and the same events broadcast to each room, and it leaves all sockets as they were. -/
theorem chatSend_independent_of_session
    (env : Env) (store : Store) (p : SendPayload)
    (sockets1 sockets2 : List Socket) (sid1 sid2 : String) :
    (chatSend env ⟨sockets1, store⟩ sid1 p).1.store
      = (chatSend env ⟨sockets2, store⟩ sid2 p).1.store ∧
    logOf (chatSend env ⟨sockets1, store⟩ sid1 p).1.store p.roomId
      = logOf (chatSend env ⟨sockets2, store⟩ sid2 p).1.store p.roomId ∧
    (∀ r, roomBroadcasts r (chatSend env ⟨sockets1, store⟩ sid1 p).2
      = roomBroadcasts r (chatSend env ⟨sockets2, store⟩ sid2 p).2) ∧
    (chatSend env ⟨sockets1, store⟩ sid1 p).1.sockets = sockets1 := by
  rcases chatSend_shape env store p with ⟨msg, h⟩ | ⟨store', effs, h⟩
  · rw [h sockets1 sid1, h sockets2 sid2]
    exact ⟨rfl, rfl, fun r => rfl, rfl⟩
  · rw [h sockets1 sid1, h sockets2 sid2]
    exact ⟨rfl, rfl, fun r => rfl, rfl⟩

/-! ## C13: the merged typing view -/

theorem typingUserAfter_append (userId : JsString) (events : List TypingEvent)
    (e : TypingEvent) :
    typingUserAfter userId (events ++ [e]) = onTypingEvent userId .null e := by
  unfold typingUserAfter
  rw [List.foldl_append]
  cases e <;> rfl

theorem onTypingSnapshot_some (userId : JsString) (data : List (String × TypingRecord)) :
    onTypingSnapshot userId (some data) =
      match data.find? (fun x => decide (JsString.str x.1 ≠ userId)) with
      | some kv => if kv.1 ≠ "" then .str (typingUserName kv.2) else .null
      | none => .null := by
  have hpred : (fun kv : String × TypingRecord => JsString.str kv.1 != userId && true)
      = (fun x => decide (JsString.str x.1 ≠ userId)) := by
    funext x
    by_cases h : JsString.str x.1 = userId <;> simp [h]
  unfold onTypingSnapshot
  simp only [hpred]
  cases data.find? (fun x => decide (JsString.str x.1 ≠ userId)) with
  | none => rfl
  | some kv =>
    dsimp only
    by_cases hk : kv.1 = ""
    · have hfalse : ¬ strTruthy kv.1 = true := fun h => (strTruthy_iff kv.1).mp h hk
      rw [if_neg hfalse, if_neg (not_not.mpr hk)]
    · rw [if_pos ((strTruthy_iff kv.1).mpr hk), if_pos hk]

/-- C13 (counterexample): the observer is u1; after a relay event of Bob, a snapshot with
the observer's own record and a record of u2 that is marked typing and has no username
makes the view "Someone", which is the name of no user of the event. -/
theorem snapshot_label_not_name_of_typing_user :
    typingUserAfter (.str "u1")
        [.relay (.str "u2") (.str "Bob") true,
         .snapshot (some [("u1", ⟨some "Ann", true⟩), ("u2", ⟨none, true⟩)])]
      = .str "Someone" ∧
    (∀ kv ∈ [("u1", (⟨some "Ann", true⟩ : TypingRecord)), ("u2", ⟨none, true⟩)],
      kv.2.username ≠ some "Someone") := by
  refine ⟨?_, ?_⟩ <;> decide

/-- C13 (amended): the view after a non-empty sequence of typing events is derived from
the most recent event alone. For a relay event it is the userName of the event when the
event is marked typing and its userId is not the observer's, and null otherwise. For a
snapshot: when the first key other than the observer's own is not empty and its record is
marked typing, the view is the label of that record, its username, or "Someone" when it
has none; and when all records of the snapshot are marked typing, a label is shown only
for a user other than the observer who is marked typing, and the view is null when no
user other than the observer is marked typing. -/
theorem typingUser_derived_from_last_event
    (userId : JsString) (events : List TypingEvent) (e : TypingEvent) :
    typingUserAfter userId (events ++ [e]) = typingUserAfter userId [e] ∧
    (∀ uid name typing, e = .relay uid name typing →
      typingUserAfter userId (events ++ [e])
        = if typing = true ∧ uid ≠ userId then name else .null) ∧
    (∀ data, e = .snapshot data →
      typingUserAfter userId (events ++ [e]) ≠ .undefined ∧
      (∀ kv, (data.getD []).find? (fun x => decide (JsString.str x.1 ≠ userId)) = some kv →
        kv.2.isTyping = true → kv.1 ≠ "" →
        typingUserAfter userId (events ++ [e]) = .str (typingUserName kv.2)) ∧
      ((∀ kv ∈ data.getD [], kv.2.isTyping = true) →
        (∀ label, typingUserAfter userId (events ++ [e]) = .str label →
          ∃ key record, (key, record) ∈ data.getD [] ∧ JsString.str key ≠ userId ∧
            record.isTyping = true ∧ label = typingUserName record) ∧
        ((∀ kv ∈ data.getD [], kv.2.isTyping = true → JsString.str kv.1 = userId) →
          typingUserAfter userId (events ++ [e]) = .null))) := by
  refine ⟨?_, ?_, ?_⟩
  · rw [typingUserAfter_append]
    exact (typingUserAfter_append userId [] e).symm
  · intro uid name typing he
    rw [typingUserAfter_append, he]
    simp only [onTypingEvent, onUserTyping]
    by_cases ht : typing = true <;> by_cases hu : uid = userId <;> simp [ht, hu]
  · intro data he
    rw [typingUserAfter_append, he]
    simp only [onTypingEvent]
    cases data with
    | none =>
      refine ⟨?_, ?_, ?_⟩
      · intro h
        cases h
      · intro kv hf
        simp at hf
      · intro _
        refine ⟨?_, ?_⟩
        · intro label hres
          cases hres
        · intro _
          rfl
    | some d =>
      rw [onTypingSnapshot_some]
      simp only [Option.getD_some]
      cases hf : d.find? (fun x => decide (JsString.str x.1 ≠ userId)) with
      | none =>
        refine ⟨?_, ?_, ?_⟩
        · intro h
          cases h
        · intro kv hkv
          cases hkv
        · intro _
          refine ⟨?_, ?_⟩
          · intro label hres
            cases hres
          · intro _
            rfl
      | some kv0 =>
        dsimp only
        have hmem := List.mem_of_find?_eq_some hf
        have hne : JsString.str kv0.1 ≠ userId := by simpa using List.find?_some hf
        refine ⟨?_, ?_, ?_⟩
        · by_cases hk : kv0.1 = ""
          · rw [if_neg (not_not.mpr hk)]
            intro h
            cases h
          · rw [if_pos hk]
            intro h
            cases h
        · intro kv hkv _ hk
          cases hkv
          rw [if_pos hk]
        · intro hmarked
          refine ⟨?_, ?_⟩
          · intro label hres
            by_cases hk : kv0.1 = ""
            · rw [if_neg (not_not.mpr hk)] at hres
              cases hres
            · rw [if_pos hk] at hres
              exact ⟨kv0.1, kv0.2, hmem, hne, hmarked kv0 hmem,
                (JsString.str.inj hres).symm⟩
          · intro hall
            exact absurd (hall kv0 hmem (hmarked kv0 hmem)) hne

/-- C13 (witness): after a relay event of Bob, a snapshot with the observer's own record
and a record of Bob shows Bob, and a snapshot with the observer's own record alone shows
nobody; a relay event without userId reaching an observer whose stored userId is null
shows the name of the event. -/
theorem typingUser_derived_from_last_event_witness :
    typingUserAfter (.str "u1")
        ([.relay (.str "u2") (.str "Bob") true] ++
          [.snapshot (some [("u1", ⟨some "Ann", true⟩), ("u2", ⟨some "Bob", true⟩)])])
      = .str "Bob" ∧
    typingUserAfter (.str "u1")
        ([.relay (.str "u2") (.str "Bob") true] ++
          [.snapshot (some [("u1", ⟨some "Ann", true⟩)])])
      = .null ∧
    typingUserAfter .null ([] ++ [.relay .undefined (.str "Bob") true]) = .str "Bob" :=
  ⟨((typingUser_derived_from_last_event (.str "u1") [.relay (.str "u2") (.str "Bob") true]
      (.snapshot (some [("u1", ⟨some "Ann", true⟩), ("u2", ⟨some "Bob", true⟩)]))).2.2
      (some [("u1", ⟨some "Ann", true⟩), ("u2", ⟨some "Bob", true⟩)]) rfl).2.1
      ("u2", ⟨some "Bob", true⟩) (by decide) rfl (by decide),
   (((typingUser_derived_from_last_event (.str "u1") [.relay (.str "u2") (.str "Bob") true]
      (.snapshot (some [("u1", ⟨some "Ann", true⟩)]))).2.2
      (some [("u1", ⟨some "Ann", true⟩)]) rfl).2.2 (by decide)).2 (by decide),
   (typingUser_derived_from_last_event .null [] (.relay .undefined (.str "Bob") true)).2.1
      .undefined (.str "Bob") true rfl⟩

/-! ## C14: the expiry timer of the own typing entry -/

theorem emitTyping_fields (cfg : ClientConfig) (c : TypingClient) (b : Bool) :
    (emitTyping cfg c b).now = c.now ∧ (emitTyping cfg c b).connected = c.connected ∧
    (emitTyping cfg c b).entry = c.entry ∧ (emitTyping cfg c b).timeoutRef = c.timeoutRef ∧
    (emitTyping cfg c b).pending = c.pending ∧
    (emitTyping cfg c b).nextTimerId = c.nextTimerId ∧
    (emitTyping cfg c b).sent = c.sent ++
      (if c.connected then [⟨some cfg.roomId, cfg.userId, cfg.username, b⟩] else []) := by
  unfold emitTyping
  cases h : c.connected <;> simp [h]

theorem foldl_expire_now (cfg : ClientConfig) (due : List (Nat × Nat)) :
    ∀ c1 : TypingClient, (due.foldl (fun c' _ => expire cfg c') c1).now = c1.now := by
  induction due with
  | nil => intro c1; rfl
  | cons x rest ih =>
    intro c1
    rw [List.foldl_cons, ih]
    unfold expire
    exact (emitTyping_fields cfg _ false).1

theorem clearTimeout_single (id d : Nat) : clearTimeout id [(id, d)] = [] := by
  simp [clearTimeout]

theorem timerInv_typing (cfg : ClientConfig) (c : TypingClient) (last : Option Nat)
    (h : TimerInv c last) : TimerInv (handleTypingChange cfg c true) (some c.now) := by
  have hf := emitTyping_fields cfg { c with entry := some ⟨cfg.username, true⟩ } true
  obtain ⟨hnow, _, _, href, hpend, hnext, _⟩ := hf
  have hcleared :
      (match (emitTyping cfg { c with entry := some ⟨cfg.username, true⟩ } true).timeoutRef with
        | some id =>
          if id != 0 then
            clearTimeout id (emitTyping cfg { c with entry := some ⟨cfg.username, true⟩ }
              true).pending
          else (emitTyping cfg { c with entry := some ⟨cfg.username, true⟩ } true).pending
        | none => (emitTyping cfg { c with entry := some ⟨cfg.username, true⟩ } true).pending)
      = [] := by
    rw [href, hpend]
    rcases h.shape with hp | ⟨id, t, hp, hr, hid, _⟩
    · simp only [hp]
      cases c.timeoutRef with
      | none => rfl
      | some id => simp [clearTimeout]
    · simp only [hp, hr]
      have : (id != 0) = true := by simpa using hid
      simp only [this, if_true]
      exact clearTimeout_single id _
  refine ⟨Or.inr ⟨c.nextTimerId, c.now, ?_, ?_, h.idPos, rfl⟩, ?_, ?_⟩
  · simp only [handleTypingChange, if_true, hcleared, List.nil_append, hnext, hnow]
  · simp only [handleTypingChange, if_true, hnext]
  · simp only [handleTypingChange, if_true, hnext]
    exact Nat.succ_ne_zero _
  · intro _
    simp only [handleTypingChange, if_true, hcleared, List.nil_append]
    exact List.cons_ne_nil _ _

theorem timerInv_stop (cfg : ClientConfig) (c : TypingClient) (last : Option Nat)
    (h : TimerInv c last) : TimerInv (handleTypingChange cfg c false) last := by
  obtain ⟨_, _, hentry, href, hpend, hnext, _⟩ := emitTyping_fields cfg { c with entry := none }
    false
  have hres : handleTypingChange cfg c false = emitTyping cfg { c with entry := none } false := by
    simp [handleTypingChange]
  rw [hres]
  refine ⟨?_, ?_, ?_⟩
  · rw [hpend, href]
    exact h.shape
  · rw [hnext]
    exact h.idPos
  · intro hne
    rw [hentry] at hne
    exact absurd rfl hne

theorem elapse_no_timer (cfg : ClientConfig) (c : TypingClient) (ms : Nat)
    (h : c.pending = []) : elapse cfg c ms = { c with now := c.now + ms } := by
  simp [elapse, h]

theorem elapse_not_due (cfg : ClientConfig) (c : TypingClient) (ms id d : Nat)
    (h : c.pending = [(id, d)]) (hd : ¬ d ≤ c.now + ms) :
    elapse cfg c ms = { c with now := c.now + ms } := by
  simp [elapse, h, hd]

theorem elapse_due (cfg : ClientConfig) (c : TypingClient) (ms id d : Nat)
    (h : c.pending = [(id, d)]) (hd : d ≤ c.now + ms) :
    elapse cfg c ms = expire cfg { c with now := c.now + ms, pending := [] } := by
  simp [elapse, h, hd]

theorem timerInv_elapse (cfg : ClientConfig) (c : TypingClient) (last : Option Nat) (ms : Nat)
    (h : TimerInv c last) : TimerInv (elapse cfg c ms) last := by
  rcases h.shape with hp | ⟨id, t, hp, hr, hid, hl⟩
  · rw [elapse_no_timer cfg c ms hp]
    exact ⟨Or.inl hp, h.idPos, h.active⟩
  · by_cases hd : t + 2000 ≤ c.now + ms
    · rw [elapse_due cfg c ms id _ hp hd]
      obtain ⟨_, _, hentry, _, hpend, hnext, _⟩ := emitTyping_fields cfg
        { c with now := c.now + ms, pending := [], entry := none } false
      refine ⟨Or.inl ?_, ?_, ?_⟩
      · exact hpend
      · unfold expire
        rw [hnext]
        exact h.idPos
      · intro hne
        unfold expire at hne
        rw [hentry] at hne
        exact absurd rfl hne
    · rw [elapse_not_due cfg c ms id _ hp hd]
      exact ⟨Or.inr ⟨id, t, hp, hr, hid, hl⟩, h.idPos, h.active⟩

theorem clientStep_now (cfg : ClientConfig) (c : TypingClient) (e : ClientEvent) :
    (clientStep cfg c e).now = match e with
      | .wait ms => c.now + ms
      | _ => c.now := by
  cases e with
  | input b =>
    cases b
    · simp only [clientStep, handleTypingChange]
      exact (emitTyping_fields cfg _ false).1
    · simp only [clientStep, handleTypingChange, if_true]
      exact (emitTyping_fields cfg _ true).1
  | wait ms =>
    simp only [clientStep, elapse]
    rw [foldl_expire_now]
  | connection up => rfl

theorem timerInv_run (cfg : ClientConfig) (events : List ClientEvent) :
    ∀ (c : TypingClient) (last : Option Nat), TimerInv c last →
      TimerInv (runClient cfg c events) (lastTypingFrom c.now last events) := by
  induction events with
  | nil => intro c last h; exact h
  | cons e rest ih =>
    intro c last h
    have hnow := clientStep_now cfg c e
    cases e with
    | input b =>
      cases b
      · have := ih (clientStep cfg c (.input false)) last (timerInv_stop cfg c last h)
        rw [hnow] at this
        exact this
      · have := ih (clientStep cfg c (.input true)) (some c.now) (timerInv_typing cfg c last h)
        rw [hnow] at this
        exact this
    | wait ms =>
      have := ih (clientStep cfg c (.wait ms)) last (timerInv_elapse cfg c last ms h)
      rw [hnow] at this
      exact this
    | connection up =>
      have := ih (clientStep cfg c (.connection up)) last
        ⟨h.shape, h.idPos, h.active⟩
      rw [hnow] at this
      exact this

theorem timerInv_initial (up : Bool) : TimerInv (initialClient up) none :=
  ⟨Or.inl rfl, Nat.succ_ne_zero 0, fun h => absurd rfl h⟩

/-- C14 (counterexample): Ann types while connected, the connection drops, and 2000 ms
later the timer fires: the entry is cleared, but no chat:typing event with isTyping false
is sent; the only event sent is the one of the typing input. -/
theorem expiry_without_connection_sends_no_signal :
    (runClient annClient (initialClient true) [.input true, .connection false]).entry
      = some ⟨some "Ann", true⟩ ∧
    (runClient annClient (initialClient true) [.input true, .connection false]).pending
      = [(1, 2000)] ∧
    (runClient annClient (initialClient true)
      [.input true, .connection false, .wait 2000]).entry = none ∧
    (runClient annClient (initialClient true)
      [.input true, .connection false, .wait 2000]).pending = [] ∧
    (runClient annClient (initialClient true)
      [.input true, .connection false, .wait 2000]).sent
      = [⟨some "R1", some "u1", some "Ann", true⟩] := by
  refine ⟨?_, ?_, ?_, ?_, ?_⟩ <;> decide

/-- C14 (amended): after every sequence of local inputs, passing time and connection
changes there is at most one pending timer; whenever the own typing entry is set there is
exactly one, and it fires 2000 ms after the most recent typing input; as long as that time
has not come the entry stays as it is, and once it has come, without any stop input, the
entry is cleared, no timer is pending, and one chat:typing event with isTyping false is
sent if the socket is connected at that moment, none otherwise. -/
theorem typing_entry_has_one_expiry_timer
    (cfg : ClientConfig) (up : Bool) (events : List ClientEvent) :
    (runClient cfg (initialClient up) events).pending.length ≤ 1 ∧
    ((runClient cfg (initialClient up) events).entry ≠ none →
      ∃ id t, lastTypingFrom 0 none events = some t ∧
        (runClient cfg (initialClient up) events).pending = [(id, t + 2000)] ∧
        (∀ ms, (runClient cfg (initialClient up) events).now + ms < t + 2000 →
          (elapse cfg (runClient cfg (initialClient up) events) ms).entry
            = (runClient cfg (initialClient up) events).entry) ∧
        (∀ ms, t + 2000 ≤ (runClient cfg (initialClient up) events).now + ms →
          (elapse cfg (runClient cfg (initialClient up) events) ms).entry = none ∧
          (elapse cfg (runClient cfg (initialClient up) events) ms).pending = [] ∧
          (elapse cfg (runClient cfg (initialClient up) events) ms).sent
            = (runClient cfg (initialClient up) events).sent ++
              (if (runClient cfg (initialClient up) events).connected
                then [⟨some cfg.roomId, cfg.userId, cfg.username, false⟩] else []))) := by
  have hinv := timerInv_run cfg events (initialClient up) none (timerInv_initial up)
  have hnow0 : (initialClient up).now = 0 := rfl
  rw [hnow0] at hinv
  generalize runClient cfg (initialClient up) events = c at hinv ⊢
  refine ⟨?_, ?_⟩
  · rcases hinv.shape with hp | ⟨id, t, hp, _, _, _⟩ <;> simp [hp]
  · intro hentry
    rcases hinv.shape with hp | ⟨id, t, hp, _, _, hl⟩
    · exact absurd hp (hinv.active hentry)
    · refine ⟨id, t, hl, hp, ?_, ?_⟩
      · intro ms hlt
        rw [elapse_not_due cfg c ms id _ hp (Nat.not_le.mpr hlt)]
      · intro ms hle
        rw [elapse_due cfg c ms id _ hp hle]
        obtain ⟨_, _, he, _, hpend, _, hsent⟩ := emitTyping_fields cfg
          { c with now := c.now + ms, pending := [], entry := none } false
        exact ⟨he, hpend, hsent⟩

/-- C14 (witness): Ann types at time 0 and again at time 500; at time 2499 the entry is
still set, with one timer due at 2500, and one millisecond later it is cleared. -/
theorem typing_entry_has_one_expiry_timer_witness :
    (runClient annClient (initialClient true)
      [.input true, .wait 500, .input true, .wait 1999]).pending = [(2, 2500)] ∧
    (elapse annClient (runClient annClient (initialClient true)
      [.input true, .wait 500, .input true, .wait 1999]) 1).entry = none := by
  obtain ⟨id, t, h1, _, _, h3⟩ := (typing_entry_has_one_expiry_timer annClient true
    [.input true, .wait 500, .input true, .wait 1999]).2 (by decide)
  have ht : t = 500 := by
    have h500 : lastTypingFrom 0 none
        [ClientEvent.input true, .wait 500, .input true, .wait 1999] = some 500 := rfl
    rw [h500] at h1
    exact (Option.some.inj h1).symm
  subst ht
  exact ⟨by decide, (h3 1 (by decide)).1⟩

end CollegeCompanion
